/-
  Verification of the zenow backend against its natural-language specification.

  Shallow embedding of the core components of the repository:
    * src/backend/src/utils/token_estimator.py        (TokenEstimator)
    * src/backend/src/comon/sqlite/sqlite_session.py  (history windowing)
    * src/backend/src/comon/sqlite/sqlite_config.py   (model-record store)
    * src/backend/src/model/llm.py                    (LLMServer / LLMClient)
    * src/backend/src/pipeline/model_select.py        (model selection pipeline)
    * src/backend/spacemit_llm/pipeline/model_param_change.py
    * src/backend/spacemit_llm/pipeline/chat.py
    * src/backend/spacemit_llm/model/download.py and src/backend/src/model/download.py

  Python texts are modelled as lists of Unicode codepoints (`List Nat`),
  floats appearing in the estimator are modelled by exact scaled-integer
  arithmetic (the constants 1.8, 1.3, 0.5, 1.0 all have one decimal digit,
  so every quantity is an integer once multiplied by 10), and the mutable
  objects of the Python code are modelled by explicit state passing.
-/
import Mathlib

set_option linter.unusedVariables false

namespace TokenEstimator

/-- Characters counted by the regex `[一-鿿　-〿＀-￯]`
(the `chinese_chars` count of `TokenEstimator.estimate_tokens`). -/
def isCJK (c : Nat) : Bool :=
  (0x4e00 ≤ c && c ≤ 0x9fff) || (0x3000 ≤ c && c ≤ 0x303f) || (0xff00 ≤ c && c ≤ 0xffef)

/-- ASCII Latin letters, the character class `[a-zA-Z]`. -/
def isLatinLetter (c : Nat) : Bool :=
  (65 ≤ c && c ≤ 90) || (97 ≤ c && c ≤ 122)

/-- Decimal digits as matched by Python's Unicode-aware `\d`, restricted to the
ranges the estimator distinguishes: ASCII digits and fullwidth digits
U+FF10–U+FF19 (which also fall inside the third CJK range above). -/
def isDigitChar (c : Nat) : Bool :=
  (48 ≤ c && c ≤ 57) || (0xff10 ≤ c && c ≤ 0xff19)

/-- Python's Unicode-aware word character `\w`, modelled on ASCII word
characters plus the word-character portions of the estimator's CJK ranges
(CJK ideographs, fullwidth Latin letters and digits, halfwidth katakana and
hangul).  The word-boundary `\b` of the `english_words` regex is defined from
this predicate. -/
def isWordChar (c : Nat) : Bool :=
  isLatinLetter c || isDigitChar c || c == 95 ||
  (0x4e00 ≤ c && c ≤ 0x9fff) ||
  (0xff21 ≤ c && c ≤ 0xff3a) || (0xff41 ≤ c && c ≤ 0xff5a) ||
  (0xff66 ≤ c && c ≤ 0xff9f) || (0xffa0 ≤ c && c ≤ 0xffdc)

/-- Number of occurrences of `\d+` in the text: maximal runs of digit
characters.  `inRun` records whether the previous character was a digit. -/
def digitRuns : Bool → List Nat → Nat
  | _, [] => 0
  | inRun, c :: cs =>
    if isDigitChar c then (if inRun then 0 else 1) + digitRuns true cs
    else digitRuns false cs

/-- Number of occurrences of `\b[a-zA-Z]+\b` in the text.
State: `prevW` — the previous character was a word character;
`inLetters` — we are inside a run of Latin letters;
`validStart` — that run started right after a non-word character (or at the
start of the text), i.e. its left `\b` matched. -/
def wordsAux : Bool → Bool → Bool → List Nat → Nat
  | _, inLetters, validStart, [] => if inLetters && validStart then 1 else 0
  | prevW, inLetters, validStart, c :: cs =>
    if isLatinLetter c then
      if inLetters then wordsAux true true validStart cs
      else wordsAux true true (!prevW) cs
    else
      (if inLetters && validStart && !(isWordChar c) then 1 else 0) +
      wordsAux (isWordChar c) false false cs

def countWords (text : List Nat) : Nat := wordsAux false false false text

/-- Characters matched by `[a-zA-Z\d]` (subtracted when computing
`other_chars`). -/
def countAlnum (text : List Nat) : Nat :=
  text.countP (fun c => isLatinLetter c || isDigitChar c)

def countCJK (text : List Nat) : Nat := text.countP isCJK

/-- `TokenEstimator.estimate_tokens` (token_estimator.py lines 32–66).
All weights are multiplied by 10 so the arithmetic is exact; Python's
`int(...)` truncation toward zero on the weighted sum is `Int.tdiv · 10`.
Note `other_chars` is `len(text) - chinese_chars - len(findall('[a-zA-Z\d]'))`,
which can double-subtract fullwidth digits (they are in both classes). -/
def estimate_tokens (text : List Nat) : Int :=
  if text.isEmpty then 0
  else
    let chinese_chars : Int := countCJK text
    let english_words : Int := countWords text
    let numbers : Int := digitRuns false text
    let other_chars : Int := (text.length : Int) - chinese_chars - (countAlnum text : Int)
    let total10 : Int :=
      18 * chinese_chars + 13 * english_words + 5 * numbers + 10 * other_chars
    total10.tdiv 10 + 1

/-- `TokenEstimator.estimate_message_tokens` (lines 68–86): content estimate
plus a constant role-framing overhead of 4; the role string itself is not
inspected. -/
def estimate_message_tokens (role content : List Nat) : Int :=
  estimate_tokens content + 4

/-- `TokenEstimator.estimate_messages_tokens` (lines 88–107): sum of the
per-message estimates plus a constant conversation-framing overhead of 3. -/
def estimate_messages_tokens (messages : List (List Nat × List Nat)) : Int :=
  (messages.foldl (fun total m => total + estimate_message_tokens m.1 m.2) 0) + 3

/-- The per-text formula exactly as claim C8 words it: 0.5 *per digit*
(not per maximal digit run), and 1.0 per character that is in none of the
other classes; no special case for the empty string. -/
def estimate_tokens_claimed (text : List Nat) : Int :=
  let cjk : Int := countCJK text
  let words : Int := countWords text
  let digits : Int := text.countP isDigitChar
  let remaining : Int :=
    text.countP (fun c => !(isCJK c) && !(isLatinLetter c) && !(isDigitChar c))
  (18 * cjk + 13 * words + 5 * digits + 10 * remaining).tdiv 10 + 1

/-- Whether the (optional) previous character is a digit. -/
def prevDigit : Option Nat → Bool
  | some d => isDigitChar d
  | none => false

/-- Number of maximal digit runs, written independently as the number of
run-starting positions (a digit whose predecessor is absent or not a digit). -/
def runStarts : Option Nat → List Nat → Nat
  | _, [] => 0
  | prev, c :: cs =>
    (if isDigitChar c && !(prevDigit prev) then 1 else 0) + runStarts (some c) cs

/-- The amended per-text formula: empty text estimates to 0; otherwise
truncation toward zero of 1.8·CJK + 1.3·words + 0.5·(maximal digit runs)
+ 1.0·(length − CJK − Latin/digit characters), plus 1. -/
def estimate_tokens_spec (text : List Nat) : Int :=
  if text.isEmpty then 0
  else
    (18 * (countCJK text : Int) + 13 * (countWords text : Int)
      + 5 * (runStarts none text : Int)
      + 10 * ((text.length : Int) - countCJK text - countAlnum text)).tdiv 10 + 1

lemma digitRuns_eq_runStarts (cs : List Nat) :
    ∀ (b : Bool) (prev : Option Nat), prevDigit prev = b →
      digitRuns b cs = runStarts prev cs := by
  induction cs with
  | nil => intro b prev _; rfl
  | cons c cs ih =>
    intro b prev h
    simp only [digitRuns, runStarts, h]
    by_cases hc : isDigitChar c = true
    · rw [ih true (some c) (by simp [prevDigit, hc])]
      cases b <;> simp [hc]
    · simp only [Bool.not_eq_true] at hc
      rw [ih false (some c) (by simp [prevDigit, hc])]
      simp [hc]

lemma estimate_eq_spec (text : List Nat) :
    estimate_tokens text = estimate_tokens_spec text := by
  unfold estimate_tokens estimate_tokens_spec
  rw [digitRuns_eq_runStarts text false none rfl]

lemma countAlnum_le_length (text : List Nat) : countAlnum text ≤ text.length :=
  List.countP_le_length _

lemma total10_nonneg (text : List Nat) :
    0 ≤ 18 * (countCJK text : Int) + 13 * (countWords text : Int)
      + 5 * (runStarts none text : Int)
      + 10 * ((text.length : Int) - countCJK text - countAlnum text) := by
  have h1 : (countAlnum text : Int) ≤ (text.length : Int) := by
    exact_mod_cast countAlnum_le_length text
  have h2 : (0 : Int) ≤ (countCJK text : Int) := Int.ofNat_nonneg _
  have h3 : (0 : Int) ≤ (countWords text : Int) := Int.ofNat_nonneg _
  have h4 : (0 : Int) ≤ (runStarts none text : Int) := Int.ofNat_nonneg _
  linarith

lemma estimate_tokens_pos (text : List Nat) (h : text ≠ []) :
    1 ≤ estimate_tokens text := by
  rw [estimate_eq_spec]
  unfold estimate_tokens_spec
  rw [if_neg (by simpa using h)]
  have hdiv : 0 ≤ (18 * (countCJK text : Int) + 13 * (countWords text : Int)
      + 5 * (runStarts none text : Int)
      + 10 * ((text.length : Int) - countCJK text - countAlnum text)).tdiv 10 :=
    Int.tdiv_nonneg (total10_nonneg text) (by norm_num)
  omega

lemma foldl_msgs (ms : List (List Nat × List Nat)) (b : Int) :
    ms.foldl (fun total m => total + estimate_message_tokens m.1 m.2) b
      = b + (ms.map (fun m => estimate_tokens m.2 + 4)).sum := by
  induction ms generalizing b with
  | nil => simp
  | cons n ns ih =>
    rw [List.foldl_cons, ih]
    simp only [List.map_cons, List.sum_cons, estimate_message_tokens]
    ring

end TokenEstimator

/-- C8: the claim states the per-text token estimate weighs digits at 0.5
*per digit*; the source weighs 0.5 per maximal digit run (`re.findall('\d+')`
counts runs).  On the text "12" the code yields int(0.5)+1 = 1 while the
claimed formula yields int(1.0)+1 = 2. -/
theorem C8_counterexample :
    TokenEstimator.estimate_tokens [49, 50] = 1 ∧
    TokenEstimator.estimate_tokens_claimed [49, 50] = 2 := by
  constructor <;> rfl

/-- C8 (amended): for every text, the token estimate is 0 on the empty text
and otherwise equals truncation toward zero of (1.8 × CJK characters +
1.3 × Latin words by word-boundary matching + 0.5 per maximal digit run +
1.0 × (length − CJK count − Latin-letter/digit count)), plus 1; estimating a
role+content pair adds a constant 4, and a multi-message payload adds a
constant 3 once. -/
theorem C8_token_estimator_formula :
    (∀ text : List Nat,
      TokenEstimator.estimate_tokens text = TokenEstimator.estimate_tokens_spec text) ∧
    (∀ role content : List Nat,
      TokenEstimator.estimate_message_tokens role content =
        TokenEstimator.estimate_tokens content + 4) ∧
    (∀ messages : List (List Nat × List Nat),
      TokenEstimator.estimate_messages_tokens messages =
        (messages.map
          (fun m => TokenEstimator.estimate_tokens m.2 + 4)).sum + 3) := by
  refine ⟨TokenEstimator.estimate_eq_spec, fun _ _ => rfl, fun messages => ?_⟩
  unfold TokenEstimator.estimate_messages_tokens
  congr 1
  rw [TokenEstimator.foldl_msgs messages 0]
  ring

/-- C9: the claimed concatenation property fails: "hello" has estimate 2
(one Latin word), "1" has estimate 1, but "hello1" has estimate 1 — the
trailing digit destroys the word boundary, so no Latin word is counted and
the digit run contributes only 0.5. -/
theorem C9_counterexample :
    ¬ (∀ s t : List Nat,
        max (TokenEstimator.estimate_tokens s) (TokenEstimator.estimate_tokens t) ≤
          TokenEstimator.estimate_tokens (s ++ t)) := by
  intro h
  have := h [104, 101, 108, 108, 111] [49]
  revert this
  decide

/-- C9 (amended): for every non-empty text the token estimate is ≥ 1, and the
estimate of a concatenation of two texts is ≥ 1 whenever at least one of them
is non-empty (the concatenation estimate can drop below the maximum of the two
individual estimates, e.g. "hello" ++ "1"). -/
theorem C9_estimate_nondegenerate (s t : List Nat) (h : s ≠ [] ∨ t ≠ []) :
    (s ≠ [] → 1 ≤ TokenEstimator.estimate_tokens s) ∧
    1 ≤ TokenEstimator.estimate_tokens (s ++ t) := by
  refine ⟨TokenEstimator.estimate_tokens_pos s, ?_⟩
  apply TokenEstimator.estimate_tokens_pos
  rcases h with h | h
  · exact fun hc => h (List.append_eq_nil.mp hc).1
  · exact fun hc => h (List.append_eq_nil.mp hc).2

/-- Witness for C9 (amended) at s = "a", t = "". -/
theorem C9_estimate_nondegenerate_witness :
    ([97] ≠ ([] : List Nat) → 1 ≤ TokenEstimator.estimate_tokens [97]) ∧
    1 ≤ TokenEstimator.estimate_tokens ([97] ++ []) :=
  C9_estimate_nondegenerate [97] [] (Or.inl (by decide))

namespace SessionStore

/-- A persisted chat message row (`messages` table of sqlite_session.py).
`created_at` ordering is represented by list position. -/
structure Message where
  id : Nat
  session_id : Nat
  role : String
  content : String
  token_count : Int
deriving DecidableEq, Repr

def tokenSum (msgs : List Message) : Int :=
  (msgs.map (fun m => m.token_count)).sum

/-- The selection loop of `get_messages_within_token_limit` (lines 308–321):
walk the newest-first list, accumulate each message's stored token count, and
break before the first message that would push the running total over
`available`. -/
def selectLoop (available : Int) : Int → List Message → List Message
  | _, [] => []
  | current, m :: rest =>
    if current + m.token_count > available then []
    else m :: selectLoop available (current + m.token_count) rest

/-- `SQLiteSession.get_messages_within_token_limit` (lines 267–325).
`msgs` holds the session's persisted messages in chronological (created_at
ascending) order; the SQL query reads them newest-first, modelled by
`msgs.reverse`.  The selected messages are reversed back to chronological
order before being returned. -/
def get_messages_within_token_limit (msgs : List Message)
    (max_tokens system_prompt_tokens : Int) : List Message :=
  let all_messages := msgs.reverse
  if all_messages.isEmpty then []
  else
    let available := max_tokens - system_prompt_tokens
    (selectLoop available 0 all_messages).reverse

lemma tokenSum_reverse (l : List Message) : tokenSum l.reverse = tokenSum l := by
  simp [tokenSum, List.map_reverse, List.sum_reverse]

lemma selectLoop_split (available : Int) :
    ∀ (l : List Message) (current : Int),
      ∃ suffix, l = selectLoop available current l ++ suffix ∧
        (selectLoop available current l ≠ [] →
          current + tokenSum (selectLoop available current l) ≤ available) ∧
        (∀ m suffix2, suffix = m :: suffix2 →
          current + tokenSum (selectLoop available current l) + m.token_count >
            available) := by
  intro l
  induction l with
  | nil =>
    intro current
    exact ⟨[], by simp [selectLoop], by simp [selectLoop], by simp⟩
  | cons m rest ih =>
    intro current
    by_cases hm : current + m.token_count > available
    · refine ⟨m :: rest, by simp [selectLoop, hm], by simp [selectLoop, hm], ?_⟩
      intro m2 suffix2 heq
      simp only [selectLoop, if_pos hm]
      injection heq with h1 _
      subst h1
      simpa [tokenSum] using hm
    · obtain ⟨suffix, hsplit, hbound, hnext⟩ := ih (current + m.token_count)
      refine ⟨suffix, ?_, ?_, ?_⟩
      · simp only [selectLoop, if_neg hm, List.cons_append]
        exact congrArg (m :: ·) hsplit
      · intro _
        simp only [selectLoop, if_neg hm]
        by_cases hr : selectLoop available (current + m.token_count) rest = []
        · simp only [hr, tokenSum, List.map_cons, List.map_nil, List.sum_cons,
            List.sum_nil]
          omega
        · have := hbound hr
          simp only [tokenSum, List.map_cons, List.sum_cons] at this ⊢
          omega
      · intro m2 suffix2 heq
        have := hnext m2 suffix2 heq
        simp only [selectLoop, if_neg hm, tokenSum, List.map_cons,
          List.sum_cons] at this ⊢
        omega

end SessionStore

/-- C3: the history windower scans the session's persisted messages
newest-first, accumulating each message's stored token estimate, stops before
the first message that would push the running total over the budget, and
returns the selected messages in chronological order.  Formally: the result
is a suffix of the chronological message list (`msgs = dropped ++ result`),
its token sum fits the budget when non-empty, and the newest dropped message
(if any) would have pushed the total over the budget.  In particular, for
stored estimates [10,10,10,10] and budget 25 it returns exactly the last two
messages in chronological order. -/
theorem C3_history_windowing :
    (∀ (msgs : List SessionStore.Message) (max_tokens system_prompt_tokens : Int),
      ∃ dropped,
        msgs = dropped ++
          SessionStore.get_messages_within_token_limit msgs max_tokens
            system_prompt_tokens ∧
        (SessionStore.get_messages_within_token_limit msgs max_tokens
            system_prompt_tokens ≠ [] →
          SessionStore.tokenSum
              (SessionStore.get_messages_within_token_limit msgs max_tokens
                system_prompt_tokens) ≤ max_tokens - system_prompt_tokens) ∧
        (∀ m, dropped.getLast? = some m →
          SessionStore.tokenSum
              (SessionStore.get_messages_within_token_limit msgs max_tokens
                system_prompt_tokens) + m.token_count >
            max_tokens - system_prompt_tokens)) ∧
    SessionStore.get_messages_within_token_limit
        [⟨1, 1, "user", "a", 10⟩, ⟨2, 1, "assistant", "b", 10⟩,
         ⟨3, 1, "user", "c", 10⟩, ⟨4, 1, "assistant", "d", 10⟩] 25 0 =
      [⟨3, 1, "user", "c", 10⟩, ⟨4, 1, "assistant", "d", 10⟩] := by
  constructor
  · intro msgs max_tokens system_prompt_tokens
    by_cases hempty : msgs.reverse.isEmpty = true
    · have hmsgs : msgs = [] := by
        rw [List.isEmpty_iff] at hempty
        simpa using congrArg List.reverse hempty
      subst hmsgs
      refine ⟨[], by simp [SessionStore.get_messages_within_token_limit], ?_, ?_⟩
      · simp [SessionStore.get_messages_within_token_limit]
      · intro m hm
        simp at hm
    · have hgm : SessionStore.get_messages_within_token_limit msgs max_tokens
          system_prompt_tokens =
          (SessionStore.selectLoop (max_tokens - system_prompt_tokens) 0
            msgs.reverse).reverse := by
        unfold SessionStore.get_messages_within_token_limit
        rw [if_neg hempty]
      obtain ⟨suffix, hsplit, hbound, hnext⟩ :=
        SessionStore.selectLoop_split (max_tokens - system_prompt_tokens)
          msgs.reverse 0
      refine ⟨suffix.reverse, ?_, ?_, ?_⟩
      · rw [hgm]
        have := congrArg List.reverse hsplit
        simp only [List.reverse_reverse, List.reverse_append] at this
        exact this
      · rw [hgm]
        intro hne
        have hne2 : SessionStore.selectLoop (max_tokens - system_prompt_tokens)
            0 msgs.reverse ≠ [] := by
          intro hc; rw [hc] at hne; simp at hne
        have := hbound hne2
        rw [SessionStore.tokenSum_reverse]
        omega
      · intro m hm
        have hhead : suffix.head? = some m := by
          rw [← List.head?_reverse, List.reverse_reverse] at hm
          exact hm
        obtain ⟨suffix2, hs2⟩ : ∃ suffix2, suffix = m :: suffix2 := by
          cases suffix with
          | nil => simp at hhead
          | cons a b =>
            simp only [List.head?_cons, Option.some.injEq] at hhead
            exact ⟨b, by rw [hhead]⟩
        have := hnext m suffix2 hs2
        rw [hgm, SessionStore.tokenSum_reverse]
        omega
  · rfl

/-- Witness for C3 at the concrete [10,10,10,10] / budget-25 session. -/
theorem C3_history_windowing_witness :
    ∃ dropped,
      [(⟨1, 1, "user", "a", 10⟩ : SessionStore.Message),
       ⟨2, 1, "assistant", "b", 10⟩, ⟨3, 1, "user", "c", 10⟩,
       ⟨4, 1, "assistant", "d", 10⟩] = dropped ++
        SessionStore.get_messages_within_token_limit
          [⟨1, 1, "user", "a", 10⟩, ⟨2, 1, "assistant", "b", 10⟩,
           ⟨3, 1, "user", "c", 10⟩, ⟨4, 1, "assistant", "d", 10⟩] 25 0 ∧
      (SessionStore.get_messages_within_token_limit
          [⟨1, 1, "user", "a", 10⟩, ⟨2, 1, "assistant", "b", 10⟩,
           ⟨3, 1, "user", "c", 10⟩, ⟨4, 1, "assistant", "d", 10⟩] 25 0 ≠ [] →
        SessionStore.tokenSum
            (SessionStore.get_messages_within_token_limit
              [⟨1, 1, "user", "a", 10⟩, ⟨2, 1, "assistant", "b", 10⟩,
               ⟨3, 1, "user", "c", 10⟩, ⟨4, 1, "assistant", "d", 10⟩] 25 0) ≤
          25 - 0) ∧
      (∀ m, dropped.getLast? = some m →
        SessionStore.tokenSum
            (SessionStore.get_messages_within_token_limit
              [⟨1, 1, "user", "a", 10⟩, ⟨2, 1, "assistant", "b", 10⟩,
               ⟨3, 1, "user", "c", 10⟩, ⟨4, 1, "assistant", "d", 10⟩] 25 0) +
          m.token_count > 25 - 0) :=
  (C3_history_windowing).1
    [⟨1, 1, "user", "a", 10⟩, ⟨2, 1, "assistant", "b", 10⟩,
     ⟨3, 1, "user", "c", 10⟩, ⟨4, 1, "assistant", "d", 10⟩] 25 0

namespace Orchestrator

/-- Server lifecycle states of llm.py (MODEL_STATUS_* constants). -/
inductive SrvStatus
  | not_started
  | starting
  | running
  | error
  | stopped
deriving DecidableEq, Repr

/-- The mutable state of an `LLMServer` instance (llm.py lines 25–59).
`process` models `self.process is not None`; the embedding does not track
external death of the owned OS process, so `poll() is None` holds whenever a
process is owned and `is_running` of `get_status` is `process` itself. -/
structure Server where
  context_size : Int
  threads : Int
  gpu_layers : Int
  batch_size : Int
  process : Bool
  current_model : Option String
  current_model_path : Option String
  status : SrvStatus
  error_message : Option String
deriving DecidableEq, Repr

/-- Behaviour of the environment during one `start_server` call: whether
`subprocess.Popen` succeeds and whether the `/health` endpoint answers 200
within the bounded poll loop. -/
structure StartEnv where
  spawnOk : Bool
  healthOk : Bool
deriving DecidableEq, Repr

/-- `model_file.suffix.lower() == '.gguf'` (llm.py line 81), modelled as a
case-insensitive `.gguf` suffix test on the path's character list. -/
def hasGgufSuffix (p : String) : Bool :=
  (p.data.map Char.toLower).reverse.take 5 == ['f', 'u', 'g', 'g', '.']

/-- `LLMServer.stop_server` (llm.py lines 153–187): no-op success without an
owned process; otherwise the graceful-then-forceful kill always ends in the
`finally` block clearing the owned state.  (The `except` branch covering OS
errors while signalling is not modelled.) -/
def stop_server (s : Server) : Bool × Server :=
  if s.process = false then (true, s)
  else
    (true, { s with process := false, status := .stopped,
                    current_model := none, current_model_path := none })

/-- `LLMServer.start_server` (llm.py lines 61–151).  `fs` is the set of
existing files.  Validation failures and spawn failures return `false`
without owning a process; a health-check timeout marks ERROR, captures the
message, and force-stops the half-started process (whose `finally` block then
sets the status to STOPPED). -/
def start_server (fs : List String) (env : StartEnv) (s : Server)
    (model_path model_name : String) : Bool × Server :=
  if fs.contains model_path then
    if hasGgufSuffix model_path then
      let s1 := if s.process then (stop_server s).2 else s
      let s2 := { s1 with status := .starting,
                          current_model := some model_name,
                          current_model_path := some model_path }
      if env.spawnOk then
        let s3 := { s2 with process := true }
        if env.healthOk then
          (true, { s3 with status := .running, error_message := none })
        else
          let s4 := { s3 with
            status := .error,
            error_message := some "Server failed to start within timeout period" }
          (false, (stop_server s4).2)
      else
        (false, { s2 with status := .error,
                          error_message := some "Failed to start server" })
    else
      (false, { s with status := .error,
                       error_message := some "Invalid model file format" })
  else
    (false, { s with status := .error,
                     error_message := some "Model file not found" })

/-- `is_running` field of `LLMServer.get_status` (llm.py line 215):
`process is not None and process.poll() is None`. -/
def is_running (s : Server) : Bool := s.process

/-- `LLMServer.update_parameters` (llm.py lines 218–255): store the supplied
fields, then — only if a live process is owned — restart via `start_server`
with the same model identity. -/
def update_parameters (fs : List String) (env : StartEnv) (s : Server)
    (context_size threads gpu_layers batch_size : Option Int) : Bool × Server :=
  let s1 := { s with
    context_size := context_size.getD s.context_size,
    threads := threads.getD s.threads,
    gpu_layers := gpu_layers.getD s.gpu_layers,
    batch_size := batch_size.getD s.batch_size }
  match s1.current_model_path with
  | some p =>
    if s1.process then
      start_server fs env s1 p (s1.current_model.getD "")
    else (true, s1)
  | none => (true, s1)

/-- The mutable state of an `LLMClient` instance (llm.py lines 301–323).
Floats are modelled as exact rationals. -/
structure Client where
  temperature : Rat
  repeat_penalty : Rat
  max_tokens : Int
deriving DecidableEq, Repr

/-- `LLMClient.update_parameters` (llm.py lines 355–374). -/
def client_update_parameters (c : Client)
    (temperature repeat_penalty : Option Rat) (max_tokens : Option Int) :
    Client :=
  { c with
    temperature := temperature.getD c.temperature,
    repeat_penalty := repeat_penalty.getD c.repeat_penalty,
    max_tokens := max_tokens.getD c.max_tokens }

end Orchestrator

namespace ParamChange

/-- The seven optional arguments of
`ModelParameterChangePipeline.apply_parameters`. -/
structure Args where
  context_size : Option Int
  threads : Option Int
  gpu_layers : Option Int
  batch_size : Option Int
  temperature : Option Rat
  repeat_penalty : Option Rat
  max_tokens : Option Int
deriving DecidableEq, Repr

/-- The persisted parameter rows written by `_persist_parameters`
(`db_config.set_parameter`), one optional slot per key. -/
structure DBParams where
  context_size : Option Int
  threads : Option Int
  gpu_layers : Option Int
  batch_size : Option Int
  temperature : Option Rat
  repeat_penalty : Option Rat
  max_tokens : Option Int
deriving DecidableEq, Repr

/-- Combined state touched by the pipeline: the live `LLMServer`, the live
`LLMClient`, and the persisted configuration. -/
structure PState where
  server : Orchestrator.Server
  client : Orchestrator.Client
  db : DBParams
deriving DecidableEq, Repr

/-- A supplied optional value violates the predicate. -/
def optBadInt (o : Option Int) (p : Int → Bool) : Bool :=
  match o with
  | some v => p v
  | none => false

def optBadRat (o : Option Rat) (p : Rat → Bool) : Bool :=
  match o with
  | some v => p v
  | none => false

/-- `_validate_parameters` (model_param_change.py lines 128–153): `true` iff
no supplied field violates its static domain bound. -/
def validationOk (a : Args) : Bool :=
  !(optBadInt a.context_size (fun v => v ≤ 0)) &&
  !(optBadInt a.threads (fun v => v ≤ 0)) &&
  !(optBadInt a.gpu_layers (fun v => v < 0)) &&
  !(optBadInt a.batch_size (fun v => v ≤ 0)) &&
  !(optBadRat a.temperature (fun v => v < 0 || v > 2)) &&
  !(optBadRat a.repeat_penalty (fun v => v < 0)) &&
  !(optBadInt a.max_tokens (fun v => v ≤ 0))

/-- A supplied optional value differs from the live value (the per-field test
`x is not None and x != live` of the diff logic). -/
def changedFromInt (o : Option Int) (live : Int) : Bool :=
  match o with
  | some v => v != live
  | none => false

def changedFromRat (o : Option Rat) (live : Rat) : Bool :=
  match o with
  | some v => v != live
  | none => false

/-- Some server-affecting field is supplied (`params_provided` of
`_update_server_parameters`). -/
def serverProvided (a : Args) : Bool :=
  a.context_size.isSome || a.threads.isSome || a.gpu_layers.isSome ||
  a.batch_size.isSome

/-- Some server-affecting field is supplied with a value different from the
live one (`actual_changes` of `_update_server_parameters` is non-empty). -/
def serverChanged (s : Orchestrator.Server) (a : Args) : Bool :=
  changedFromInt a.context_size s.context_size ||
  changedFromInt a.threads s.threads ||
  changedFromInt a.gpu_layers s.gpu_layers ||
  changedFromInt a.batch_size s.batch_size

def clientProvided (a : Args) : Bool :=
  a.temperature.isSome || a.repeat_penalty.isSome || a.max_tokens.isSome

def clientChanged (c : Orchestrator.Client) (a : Args) : Bool :=
  changedFromRat a.temperature c.temperature ||
  changedFromRat a.repeat_penalty c.repeat_penalty ||
  changedFromInt a.max_tokens c.max_tokens

/-- `_update_server_parameters` (lines 155–213).  Returns the
changed-and-restarted flag together with the new server state, or `.error`
with the mutated server state when `update_params` reports failure (the
Python code then raises). -/
def update_server_parameters (fs : List String) (env : Orchestrator.StartEnv)
    (s : Orchestrator.Server) (a : Args) :
    Except Orchestrator.Server (Bool × Orchestrator.Server) :=
  if serverProvided a then
    if serverChanged s a then
      let r := Orchestrator.update_parameters fs env s
        a.context_size a.threads a.gpu_layers a.batch_size
      if r.1 then .ok (true, r.2) else .error r.2
    else .ok (false, s)
  else .ok (false, s)

/-- `_update_client_parameters` (lines 215–264). -/
def update_client_parameters (c : Orchestrator.Client) (a : Args) :
    Bool × Orchestrator.Client :=
  if clientProvided a then
    if clientChanged c a then
      (true, Orchestrator.client_update_parameters c
        a.temperature a.repeat_penalty a.max_tokens)
    else (false, c)
  else (false, c)

/-- `_persist_parameters` (lines 266–295): every supplied field (changed or
not) is written to the configuration store. -/
def persist_parameters (db : DBParams) (a : Args) : DBParams :=
  { context_size := a.context_size <|> db.context_size,
    threads := a.threads <|> db.threads,
    gpu_layers := a.gpu_layers <|> db.gpu_layers,
    batch_size := a.batch_size <|> db.batch_size,
    temperature := a.temperature <|> db.temperature,
    repeat_penalty := a.repeat_penalty <|> db.repeat_penalty,
    max_tokens := a.max_tokens <|> db.max_tokens }

structure ApplyResult where
  success : Bool
  requires_restart : Bool
deriving DecidableEq, Repr

/-- `ModelParameterChangePipeline.apply_parameters` (lines 28–126).  A
`ValueError` from validation or the exception raised on a failed server
update is caught by the outer handler, which returns
`success = false, requires_restart = false`; the human-readable message is
not modelled. -/
def apply_parameters (fs : List String) (env : Orchestrator.StartEnv)
    (st : PState) (a : Args) : ApplyResult × PState :=
  if validationOk a then
    match update_server_parameters fs env st.server a with
    | .error srv2 => (⟨false, false⟩, { st with server := srv2 })
    | .ok (changed, srv2) =>
      let c2 := update_client_parameters st.client a
      let db2 := persist_parameters st.db a
      (⟨true, changed⟩, { server := srv2, client := c2.2, db := db2 })
  else (⟨false, false⟩, st)

/-- A live state used by the concrete counterexample and witnesses: a RUNNING
server with context_size 4096, threads 4, gpu_layers 0, batch_size 512, and a
client at temperature 7/10, repeat_penalty 11/10, max_tokens 1024. -/
def sampleState : PState :=
  { server := ⟨4096, 4, 0, 512, true, some "m", some "/models/m.gguf",
               .running, none⟩,
    client := ⟨(7 : Rat)/10, (11 : Rat)/10, 1024⟩,
    db := ⟨none, none, none, none, none, none, none⟩ }

/-- Arguments supplying only an invalid context_size (0). -/
def invalidArgs : Args := ⟨some 0, none, none, none, none, none, none⟩

/-- Arguments supplying only a valid, genuinely new context_size (8192). -/
def newCtxArgs : Args := ⟨some 8192, none, none, none, none, none, none⟩

/-- The environment in which a restart succeeds: the model file exists and
the restarted server becomes healthy. -/
def goodEnv : Orchestrator.StartEnv := ⟨true, true⟩

def goodFs : List String := ["/models/m.gguf"]

lemma serverChanged_false_of_not_provided (s : Orchestrator.Server) (a : Args)
    (hp : serverProvided a = false) : serverChanged s a = false := by
  unfold serverProvided at hp
  unfold serverChanged
  cases hcs : a.context_size <;> cases hth : a.threads <;>
    cases hgl : a.gpu_layers <;> cases hbs : a.batch_size <;>
    simp_all [changedFromInt]

end ParamChange

/-- C2: as stated, the claim fails on a call whose supplied server-affecting
parameter is out of bounds: with live context_size 4096, supplying
context_size = 0 (a different value) is rejected by validation before the
diff, and the call returns requires_restart = false, not true. -/
theorem C2_counterexample :
    (ParamChange.apply_parameters ParamChange.goodFs ParamChange.goodEnv
        ParamChange.sampleState ParamChange.invalidArgs).1.requires_restart
      = false ∧
    ParamChange.invalidArgs.context_size = some 0 ∧
    ParamChange.sampleState.server.context_size = 4096 ∧
    (ParamChange.apply_parameters ParamChange.goodFs ParamChange.goodEnv
        ParamChange.sampleState ParamChange.invalidArgs).1.success = false := by
  refine ⟨rfl, rfl, rfl, rfl⟩

/-- C2 (amended): for every parameter-change call that returns
success = true, the returned requires_restart flag is true iff at least one
server-affecting parameter (context_size, threads, gpu_layers, batch_size)
was supplied with a value different from the live value; supplying only
client-affecting parameters never yields requires_restart = true, and
resubmitting unchanged server values never does.  Calls that fail
(validation error or server-update failure) return requires_restart = false
even when a server-affecting parameter with a new value was supplied. -/
theorem C2_requires_restart_iff (fs : List String)
    (env : Orchestrator.StartEnv) (st : ParamChange.PState)
    (a : ParamChange.Args)
    (h : (ParamChange.apply_parameters fs env st a).1.success = true) :
    (ParamChange.apply_parameters fs env st a).1.requires_restart = true ↔
      ParamChange.serverChanged st.server a = true := by
  by_cases hv : ParamChange.validationOk a = true
  · by_cases hp : ParamChange.serverProvided a = true
    · by_cases hc : ParamChange.serverChanged st.server a = true
      · by_cases hr : (Orchestrator.update_parameters fs env st.server
            a.context_size a.threads a.gpu_layers a.batch_size).1 = true
        · simp [ParamChange.apply_parameters,
            ParamChange.update_server_parameters, hv, hp, hc, hr]
        · rw [Bool.not_eq_true] at hr
          simp [ParamChange.apply_parameters,
            ParamChange.update_server_parameters, hv, hp, hc, hr] at h
      · rw [Bool.not_eq_true] at hc
        simp [ParamChange.apply_parameters,
          ParamChange.update_server_parameters, hv, hp, hc]
    · rw [Bool.not_eq_true] at hp
      have hc := ParamChange.serverChanged_false_of_not_provided st.server a hp
      simp [ParamChange.apply_parameters,
        ParamChange.update_server_parameters, hv, hp, hc]
  · rw [Bool.not_eq_true] at hv
    simp [ParamChange.apply_parameters, hv] at h

/-- Witness for C2 (amended): supplying context_size = 8192 against a live
4096 in a healthy environment succeeds and reports requires_restart = true,
matching the diff predicate. -/
theorem C2_requires_restart_iff_witness :
    (ParamChange.apply_parameters ParamChange.goodFs ParamChange.goodEnv
        ParamChange.sampleState ParamChange.newCtxArgs).1.requires_restart
        = true ↔
      ParamChange.serverChanged ParamChange.sampleState.server
        ParamChange.newCtxArgs = true :=
  C2_requires_restart_iff ParamChange.goodFs ParamChange.goodEnv
    ParamChange.sampleState ParamChange.newCtxArgs (by rfl)

/-- C7: a parameter-change call in which any supplied field is out of its
static domain bounds (validation fails) applies nothing: it returns
success = false and leaves the live server parameters, the live client
parameters, and the persisted configuration all unchanged. -/
theorem C7_validation_aborts_all (fs : List String)
    (env : Orchestrator.StartEnv) (st : ParamChange.PState)
    (a : ParamChange.Args) (h : ParamChange.validationOk a = false) :
    ParamChange.apply_parameters fs env st a = (⟨false, false⟩, st) := by
  unfold ParamChange.apply_parameters
  simp [h]

/-- Witness for C7 at the invalid context_size = 0 call. -/
theorem C7_validation_aborts_all_witness :
    ParamChange.apply_parameters ParamChange.goodFs ParamChange.goodEnv
        ParamChange.sampleState ParamChange.invalidArgs =
      (⟨false, false⟩, ParamChange.sampleState) :=
  C7_validation_aborts_all ParamChange.goodFs ParamChange.goodEnv
    ParamChange.sampleState ParamChange.invalidArgs (by rfl)

namespace ConfigDB

/-- A row of the `model_info` table (sqlite_config.py lines 23–36).
`created_at`/`updated_at` are not needed by the claims and are omitted. -/
structure ModelRec where
  id : Nat
  model_name : String
  model_path : String
  download_url : Option String
  mode : String
  is_current : Bool
  is_downloaded : Bool
deriving DecidableEq, Repr

/-- The `model_info` table together with the AUTOINCREMENT counter. -/
structure DB where
  recs : List ModelRec
  nextId : Nat
deriving DecidableEq, Repr

/-- A freshly initialised table; AUTOINCREMENT ids start at 1. -/
def emptyDB : DB := ⟨[], 1⟩

/-- `SQLiteConfig.get_model` (lines 128–133): SELECT by id. -/
def get_model (db : DB) (model_id : Nat) : Option ModelRec :=
  db.recs.find? (fun r => r.id == model_id)

/-- `SQLiteConfig.get_model_by_name` (lines 135–140): SELECT by name+mode. -/
def get_model_by_name (db : DB) (name mode : String) : Option ModelRec :=
  db.recs.find? (fun r => r.model_name == name && r.mode == mode)

/-- `SQLiteConfig.add_model` (lines 106–126): `is_downloaded` is set from
`Path(model_path).exists()`; the `UNIQUE(model_name, mode)` constraint makes
the INSERT raise when a row with the same name and mode already exists.  New
rows get the next autoincrement id and `is_current = 0`. -/
def add_model (fs : List String) (db : DB) (name path mode : String)
    (durl : Option String := none) : Except String (DB × Nat) :=
  if (get_model_by_name db name mode).isSome then
    .error "UNIQUE constraint failed"
  else
    .ok ({ recs := db.recs ++
             [{ id := db.nextId, model_name := name, model_path := path,
                download_url := durl, mode := mode, is_current := false,
                is_downloaded := fs.contains path }],
           nextId := db.nextId + 1 }, db.nextId)

/-- The first UPDATE of `set_current_model`:
`UPDATE model_info SET is_current = 0 WHERE mode = ?`. -/
def clearCurrent (mode : String) (r : ModelRec) : ModelRec :=
  if r.mode == mode then { r with is_current := false } else r

/-- The second UPDATE of `set_current_model`:
`UPDATE model_info SET is_current = 1 WHERE id = ?`. -/
def markCurrent (model_id : Nat) (r : ModelRec) : ModelRec :=
  if r.id == model_id then { r with is_current := true } else r

lemma clearCurrent_id (mode : String) (r : ModelRec) :
    (clearCurrent mode r).id = r.id := by
  unfold clearCurrent; by_cases hm : (r.mode == mode) = true <;> simp [hm]

lemma markCurrent_id (v : Nat) (r : ModelRec) :
    (markCurrent v r).id = r.id := by
  unfold markCurrent; by_cases hm : (r.id == v) = true <;> simp [hm]

lemma clearCurrent_mode (mode : String) (r : ModelRec) :
    (clearCurrent mode r).mode = r.mode := by
  unfold clearCurrent; by_cases hm : (r.mode == mode) = true <;> simp [hm]

lemma markCurrent_mode (v : Nat) (r : ModelRec) :
    (markCurrent v r).mode = r.mode := by
  unfold markCurrent; by_cases hm : (r.id == v) = true <;> simp [hm]

lemma clearCurrent_name (mode : String) (r : ModelRec) :
    (clearCurrent mode r).model_name = r.model_name := by
  unfold clearCurrent; by_cases hm : (r.mode == mode) = true <;> simp [hm]

lemma markCurrent_name (v : Nat) (r : ModelRec) :
    (markCurrent v r).model_name = r.model_name := by
  unfold markCurrent; by_cases hm : (r.id == v) = true <;> simp [hm]

lemma clearCurrent_path (mode : String) (r : ModelRec) :
    (clearCurrent mode r).model_path = r.model_path := by
  unfold clearCurrent; by_cases hm : (r.mode == mode) = true <;> simp [hm]

lemma markCurrent_path (v : Nat) (r : ModelRec) :
    (markCurrent v r).model_path = r.model_path := by
  unfold markCurrent; by_cases hm : (r.id == v) = true <;> simp [hm]

lemma clearCurrent_downloaded (mode : String) (r : ModelRec) :
    (clearCurrent mode r).is_downloaded = r.is_downloaded := by
  unfold clearCurrent; by_cases hm : (r.mode == mode) = true <;> simp [hm]

lemma markCurrent_downloaded (v : Nat) (r : ModelRec) :
    (markCurrent v r).is_downloaded = r.is_downloaded := by
  unfold markCurrent; by_cases hm : (r.id == v) = true <;> simp [hm]

/-- `SQLiteConfig.set_current_model` (lines 206–245): raises (`.error`) when
the id is unknown, the record is not downloaded, or its mode differs from the
requested one; only then clears every current flag of the mode and sets the
one record current.  Note the guard checks `is_downloaded` only — it does not
test file existence. -/
def set_current_model (db : DB) (model_id : Nat) (mode : String) :
    Except String DB :=
  match get_model db model_id with
  | none => .error "Model does not exist"
  | some m =>
    if m.is_downloaded = false then
      .error "model file not downloaded"
    else if m.mode ≠ mode then
      .error "Model mode mismatch"
    else
      .ok { db with
        recs := (db.recs.map (clearCurrent mode)).map (markCurrent model_id) }

/-- `SQLiteConfig.update_model_download_status` (lines 247–262). -/
def update_model_download_status (db : DB) (model_id : Nat)
    (is_downloaded : Bool) : DB :=
  { db with recs := db.recs.map (fun r =>
      if r.id == model_id then { r with is_downloaded := is_downloaded }
      else r) }

/-- `SQLiteConfig.delete_model` (lines 286–289). -/
def delete_model (db : DB) (model_id : Nat) : DB :=
  { db with recs := db.recs.filter (fun r => !(r.id == model_id)) }

/-- The mutating operations of the model-record store. -/
inductive Op
  | addModel (name path mode : String)
  | setCurrent (model_id : Nat) (mode : String)
  | updateDownloadStatus (model_id : Nat) (is_downloaded : Bool)
  | deleteModel (model_id : Nat)

/-- One store operation; a raised IntegrityError / ValueError leaves the
table unchanged (all validation precedes the UPDATEs). -/
def step (fs : List String) (db : DB) : Op → DB
  | .addModel n p m =>
    match add_model fs db n p m with
    | .ok r => r.1
    | .error _ => db
  | .setCurrent i m =>
    match set_current_model db i m with
    | .ok db2 => db2
    | .error _ => db
  | .updateDownloadStatus i b => update_model_download_status db i b
  | .deleteModel i => delete_model db i

def run (fs : List String) (db : DB) (ops : List Op) : DB :=
  ops.foldl (step fs) db

def isCurrentIn (mode : String) (r : ModelRec) : Bool :=
  r.is_current && r.mode == mode

/-- Number of records of the mode with `is_current = 1`. -/
def currentCount (db : DB) (mode : String) : Nat :=
  db.recs.countP (isCurrentIn mode)

/-- Primary-key discipline guaranteed by SQLite: ids are pairwise distinct
and below the autoincrement counter. -/
def IdOk (db : DB) : Prop :=
  (db.recs.map (fun r => r.id)).Nodup ∧ ∀ r ∈ db.recs, r.id < db.nextId

def Inv (db : DB) : Prop :=
  IdOk db ∧ ∀ mode, currentCount db mode ≤ 1

lemma inv_empty : Inv emptyDB := by
  refine ⟨⟨by simp [emptyDB], by simp [emptyDB]⟩, ?_⟩
  intro mode
  simp [currentCount, emptyDB]

lemma countP_id_le_one (l : List ModelRec) (v : Nat)
    (h : (l.map (fun r => r.id)).Nodup) :
    l.countP (fun r => r.id == v) ≤ 1 := by
  induction l with
  | nil => simp
  | cons a l ih =>
    simp only [List.map_cons, List.nodup_cons] at h
    rw [List.countP_cons]
    by_cases ha : a.id = v
    · have hz : l.countP (fun r => r.id == v) = 0 := by
        rw [List.countP_eq_zero]
        intro r hr hrv
        simp only [beq_iff_eq] at hrv
        have hmem : r.id ∈ l.map (fun r => r.id) :=
          List.mem_map_of_mem _ hr
        rw [hrv, ← ha] at hmem
        exact h.1 hmem
      simp [hz, ha]
    · have : (a.id == v) = false := by simp [ha]
      simp [this, ih h.2]

lemma countP_clear_self (l : List ModelRec) (mode : String) :
    (l.map (clearCurrent mode)).countP (isCurrentIn mode) = 0 := by
  rw [List.countP_map, List.countP_eq_zero]
  intro r hr
  simp only [Function.comp_apply, clearCurrent, isCurrentIn]
  by_cases hm : (r.mode == mode) = true
  · simp [hm]
  · simp only [Bool.not_eq_true] at hm
    simp [hm]

lemma countP_clear_other (l : List ModelRec) (mode mode2 : String)
    (h : mode2 ≠ mode) :
    (l.map (clearCurrent mode)).countP (isCurrentIn mode2) =
      l.countP (isCurrentIn mode2) := by
  rw [List.countP_map]
  induction l with
  | nil => rfl
  | cons a l ih =>
    rw [List.countP_cons, List.countP_cons, ih]
    congr 1
    simp only [Function.comp_apply, clearCurrent, isCurrentIn]
    by_cases hm : (a.mode == mode) = true
    · have hm2 : (a.mode == mode2) = false := by
        rw [beq_eq_false_iff_ne]
        simp only [beq_iff_eq] at hm
        rw [hm]
        exact fun hc => h hc.symm
      simp [hm, hm2]
    · simp only [Bool.not_eq_true] at hm
      simp [hm]

lemma countP_mark_le_of_zero (lc : List ModelRec) (v : Nat) (mode : String)
    (h0 : lc.countP (isCurrentIn mode) = 0) :
    (lc.map (markCurrent v)).countP (isCurrentIn mode) ≤
      lc.countP (fun r => r.id == v) := by
  rw [List.countP_map, List.countP_eq_zero] at *
  apply List.countP_mono_left
  intro r hr hmark
  by_cases hid : (r.id == v) = true
  · exact hid
  · exfalso
    apply h0 r hr
    simp only [Bool.not_eq_true] at hid
    simpa [Function.comp_apply, markCurrent, hid] using hmark

lemma countP_mark_other (lc : List ModelRec) (v : Nat) (mode2 : String)
    (h : ∀ r ∈ lc, r.id = v → r.mode ≠ mode2) :
    (lc.map (markCurrent v)).countP (isCurrentIn mode2) =
      lc.countP (isCurrentIn mode2) := by
  rw [List.countP_map]
  induction lc with
  | nil => rfl
  | cons a l ih =>
    rw [List.countP_cons, List.countP_cons,
      ih (fun r hr => h r (List.mem_cons_of_mem a hr))]
    congr 1
    simp only [Function.comp_apply, markCurrent, isCurrentIn]
    by_cases hid : (a.id == v) = true
    · have hid2 : a.id = v := by simpa using hid
      have hmode : (a.mode == mode2) = false := by
        rw [beq_eq_false_iff_ne]
        exact h a (List.mem_cons_self a l) hid2
      simp [hid, hmode]
    · simp only [Bool.not_eq_true] at hid
      simp [hid]

lemma ids_map_clear (l : List ModelRec) (mode : String) :
    (l.map (clearCurrent mode)).map (fun r => r.id) =
      l.map (fun r => r.id) := by
  induction l with
  | nil => rfl
  | cons a l ih => simp only [List.map_cons, ih, clearCurrent_id]

lemma ids_map_clear_mark (l : List ModelRec) (v : Nat) (mode : String) :
    ((l.map (clearCurrent mode)).map (markCurrent v)).map (fun r => r.id) =
      l.map (fun r => r.id) := by
  induction l with
  | nil => rfl
  | cons a l ih =>
    simp only [List.map_cons, ih, markCurrent_id, clearCurrent_id]

lemma set_current_ok (db : DB) (v : Nat) (mode : String) (db2 : DB)
    (h : set_current_model db v mode = .ok db2) :
    ∃ m ∈ db.recs, m.id = v ∧ m.is_downloaded = true ∧ m.mode = mode ∧
      db2 = { db with
        recs := (db.recs.map (clearCurrent mode)).map (markCurrent v) } := by
  unfold set_current_model at h
  cases hf : get_model db v with
  | none => rw [hf] at h; exact absurd h (by simp)
  | some m =>
    rw [hf] at h
    dsimp only at h
    by_cases hd : m.is_downloaded = false
    · rw [if_pos hd] at h; exact absurd h (by simp)
    · rw [if_neg hd] at h
      by_cases hm : m.mode ≠ mode
      · rw [if_pos hm] at h; exact absurd h (by simp)
      · rw [if_neg hm] at h
        refine ⟨m, List.mem_of_find?_eq_some hf, ?_, ?_, ?_, ?_⟩
        · have := List.find?_some hf
          simpa using this
        · simpa using hd
        · simpa using hm
        · simpa using h.symm

lemma inv_set_current (db : DB) (v : Nat) (mode : String) (db2 : DB)
    (hinv : Inv db) (h : set_current_model db v mode = .ok db2) :
    Inv db2 ∧ currentCount db2 mode = 1 ∧
      (∀ r ∈ db2.recs, isCurrentIn mode r = true → r.id = v) ∧
      (∀ r ∈ db2.recs, ∃ r0 ∈ db.recs, r0.id = r.id ∧
        r0.model_name = r.model_name) := by
  obtain ⟨m, hm_mem, hm_id, hm_dl, hm_mode, hdb2⟩ := set_current_ok db v mode db2 h
  obtain ⟨⟨hnodup, hbound⟩, hcur⟩ := hinv
  have hids : db2.recs.map (fun r => r.id) = db.recs.map (fun r => r.id) := by
    rw [hdb2]; exact ids_map_clear_mark db.recs v mode
  have hcount_clear : (db.recs.map (clearCurrent mode)).countP
      (fun r => r.id == v) ≤ 1 := by
    apply countP_id_le_one
    rw [ids_map_clear]
    exact hnodup
  have huniq : ∀ r ∈ db.recs, r.id = v → r = m := by
    intro r hr hrid
    exact List.inj_on_of_nodup_map hnodup hr hm_mem (by rw [hrid, hm_id])
  have hself : currentCount db2 mode = 1 := by
    have hle : currentCount db2 mode ≤ 1 := by
      rw [hdb2]
      calc ((db.recs.map (clearCurrent mode)).map (markCurrent v)).countP
            (isCurrentIn mode)
          ≤ (db.recs.map (clearCurrent mode)).countP (fun r => r.id == v) :=
            countP_mark_le_of_zero _ v mode (countP_clear_self db.recs mode)
        _ ≤ 1 := hcount_clear
    have hge : 0 < currentCount db2 mode := by
      rw [hdb2]
      unfold currentCount
      rw [List.countP_pos_iff]
      refine ⟨markCurrent v (clearCurrent mode m),
        List.mem_map_of_mem _ (List.mem_map_of_mem _ hm_mem), ?_⟩
      simp [clearCurrent, markCurrent, isCurrentIn, hm_mode, hm_id]
    omega
  refine ⟨⟨⟨by rw [hids]; exact hnodup, ?_⟩, ?_⟩, hself, ?_, ?_⟩
  · intro r hr
    rw [hdb2] at hr
    simp only [List.mem_map] at hr
    obtain ⟨r1, ⟨r0, hr0, hr01⟩, hr1⟩ := hr
    have hrid : r.id = r0.id := by
      rw [← hr1, markCurrent_id, ← hr01, clearCurrent_id]
    rw [hdb2]
    simpa [hrid] using hbound r0 hr0
  · intro mode2
    by_cases hmode2 : mode2 = mode
    · rw [hmode2, hself]
    · rw [hdb2]
      unfold currentCount
      have h1 : ∀ r ∈ db.recs.map (clearCurrent mode), r.id = v →
          r.mode ≠ mode2 := by
        intro r hr hrid
        simp only [List.mem_map] at hr
        obtain ⟨r0, hr0, hr01⟩ := hr
        have hr0id : r0.id = v := by
          rw [← hrid, ← hr01, clearCurrent_id]
        have heq := huniq r0 hr0 hr0id
        rw [← hr01, clearCurrent_mode, heq, hm_mode]
        exact fun hc => hmode2 hc.symm
      rw [countP_mark_other _ v mode2 h1,
        countP_clear_other _ mode mode2 hmode2]
      exact hcur mode2
  · intro r hr hcr
    rw [hdb2] at hr
    simp only [List.mem_map] at hr
    obtain ⟨r1, ⟨r0, hr0, hr01⟩, hr1⟩ := hr
    by_cases hid : (r1.id == v) = true
    · rw [← hr1, markCurrent_id]
      simpa using hid
    · exfalso
      have h0 := countP_clear_self db.recs mode
      rw [List.countP_eq_zero] at h0
      have hr1mem : r1 ∈ db.recs.map (clearCurrent mode) :=
        List.mem_map.mpr ⟨r0, hr0, hr01⟩
      apply h0 r1 hr1mem
      rw [← hr1] at hcr
      simp only [Bool.not_eq_true] at hid
      simpa [markCurrent, hid] using hcr
  · intro r hr
    rw [hdb2] at hr
    simp only [List.mem_map] at hr
    obtain ⟨r1, ⟨r0, hr0, hr01⟩, hr1⟩ := hr
    refine ⟨r0, hr0, ?_, ?_⟩
    · rw [← hr1, markCurrent_id, ← hr01, clearCurrent_id]
    · rw [← hr1, markCurrent_name, ← hr01, clearCurrent_name]

lemma inv_add (fs : List String) (db : DB) (name path mode : String)
    (db2 : DB) (nid : Nat) (hinv : Inv db)
    (h : add_model fs db name path mode = .ok (db2, nid)) :
    Inv db2 ∧ db2.recs = db.recs ++
      [{ id := db.nextId, model_name := name, model_path := path,
         download_url := none, mode := mode, is_current := false,
         is_downloaded := fs.contains path }] ∧ nid = db.nextId ∧
      db2.nextId = db.nextId + 1 := by
  unfold add_model at h
  by_cases hex : (get_model_by_name db name mode).isSome
  · rw [if_pos hex] at h; exact absurd h (by simp)
  · rw [if_neg hex] at h
    simp only [Except.ok.injEq, Prod.mk.injEq] at h
    obtain ⟨hdb2, hnid⟩ := h
    obtain ⟨⟨hnodup, hbound⟩, hcur⟩ := hinv
    subst hdb2
    refine ⟨⟨⟨?_, ?_⟩, ?_⟩, rfl, hnid.symm, rfl⟩
    · show (List.map (fun r => r.id) (db.recs ++ [_])).Nodup
      simp only [List.map_append, List.map_cons, List.map_nil]
      rw [List.nodup_append]
      refine ⟨hnodup, List.nodup_singleton _, ?_⟩
      intro x hx hx2
      simp only [List.mem_singleton] at hx2
      obtain ⟨r, hr, hrx⟩ := List.mem_map.mp hx
      have := hbound r hr
      omega
    · intro r hr
      simp only [List.mem_append, List.mem_singleton] at hr
      rcases hr with hr | hr
      · have := hbound r hr
        show r.id < db.nextId + 1
        omega
      · subst hr
        show db.nextId < db.nextId + 1
        omega
    · intro mode2
      unfold currentCount
      show (db.recs ++ [_]).countP (isCurrentIn mode2) ≤ 1
      simp only [List.countP_append]
      have hz : List.countP (isCurrentIn mode2)
          [({ id := db.nextId, model_name := name, model_path := path,
              download_url := none, mode := mode, is_current := false,
              is_downloaded := fs.contains path } : ModelRec)] = 0 := by
        simp [List.countP_cons, isCurrentIn]
      rw [hz]
      simpa using hcur mode2

lemma uds_recs (db : DB) (v : Nat) (b : Bool) :
    ∀ x ∈ (update_model_download_status db v b).recs,
      ∃ r0 ∈ db.recs, r0.id = x.id ∧ r0.model_name = x.model_name ∧
        r0.mode = x.mode ∧ r0.is_current = x.is_current := by
  intro x hx
  unfold update_model_download_status at hx
  simp only [List.mem_map] at hx
  obtain ⟨r0, hr0, hr0x⟩ := hx
  refine ⟨r0, hr0, ?_⟩
  rw [← hr0x]
  by_cases hid : (r0.id == v) = true <;> simp [hid]

lemma inv_uds (db : DB) (v : Nat) (b : Bool) (hinv : Inv db) :
    Inv (update_model_download_status db v b) := by
  obtain ⟨⟨hnodup, hbound⟩, hcur⟩ := hinv
  have hids : (update_model_download_status db v b).recs.map (fun r => r.id) =
      db.recs.map (fun r => r.id) := by
    unfold update_model_download_status
    simp only [List.map_map]
    apply List.map_congr_left
    intro r hr
    simp only [Function.comp_apply]
    by_cases hid : (r.id == v) = true <;> simp [hid]
  refine ⟨⟨by rw [hids]; exact hnodup, ?_⟩, ?_⟩
  · intro r hr
    obtain ⟨r0, hr0, hid, _, _, _⟩ := uds_recs db v b r hr
    have := hbound r0 hr0
    unfold update_model_download_status
    simp only []
    omega
  · intro mode2
    unfold currentCount update_model_download_status
    simp only [List.countP_map]
    have : ∀ r ∈ db.recs, (isCurrentIn mode2 ∘ fun r =>
        if r.id == v then { r with is_downloaded := b } else r) r =
        isCurrentIn mode2 r := by
      intro r hr
      simp only [Function.comp_apply, isCurrentIn]
      by_cases hid : (r.id == v) = true <;> simp [hid]
    calc db.recs.countP _ = db.recs.countP (isCurrentIn mode2) :=
          List.countP_congr (fun r hr => by rw [this r hr])
      _ ≤ 1 := hcur mode2

lemma inv_delete (db : DB) (v : Nat) (hinv : Inv db) :
    Inv (delete_model db v) := by
  obtain ⟨⟨hnodup, hbound⟩, hcur⟩ := hinv
  have hsub : (delete_model db v).recs.Sublist db.recs :=
    List.filter_sublist db.recs
  refine ⟨⟨?_, ?_⟩, ?_⟩
  · exact (hsub.map (fun r => r.id)).nodup hnodup
  · intro r hr
    have := hbound r (hsub.mem hr)
    unfold delete_model
    simp only []
    omega
  · intro mode2
    exact le_trans (hsub.countP_le (isCurrentIn mode2)) (hcur mode2)

lemma inv_step (fs : List String) (db : DB) (op : Op) (hinv : Inv db) :
    Inv (step fs db op) := by
  cases op with
  | addModel n p m =>
    simp only [step]
    cases h : add_model fs db n p m with
    | ok r => exact (inv_add fs db n p m r.1 r.2 hinv h).1
    | error e => exact hinv
  | setCurrent i m =>
    simp only [step]
    cases h : set_current_model db i m with
    | ok db2 => exact (inv_set_current db i m db2 hinv h).1
    | error e => exact hinv
  | updateDownloadStatus i b => exact inv_uds db i b hinv
  | deleteModel i => exact inv_delete db i hinv

lemma inv_run (fs : List String) (ops : List Op) (db : DB) (hinv : Inv db) :
    Inv (run fs db ops) := by
  induction ops generalizing db with
  | nil => exact hinv
  | cons op ops ih => exact ih (step fs db op) (inv_step fs db op hinv)

/-- `ModelSelectionPipeline._update_database` (model_select.py lines
281–317): for an existing (name, mode) record, refresh `is_downloaded` from
file existence of the resolved path; otherwise insert the record; then mark
it current.  The ValueError raised by a failed `set_current_model` is
re-raised; the first component reports whether the whole update succeeded,
and on failure the table keeps the mutations already applied before the
raise. -/
def update_database (fs : List String) (db : DB) (name path mode : String) :
    Bool × DB :=
  match get_model_by_name db name mode with
  | some r =>
    match set_current_model
        (update_model_download_status db r.id (fs.contains path)) r.id mode with
    | .ok db2 => (true, db2)
    | .error _ => (false, update_model_download_status db r.id (fs.contains path))
  | none =>
    match add_model fs db name path mode with
    | .error _ => (false, db)
    | .ok (db1, mid) =>
      match set_current_model db1 mid mode with
      | .ok db2 => (true, db2)
      | .error _ => (false, db1)

lemma update_database_ok (fs : List String) (db : DB)
    (name path mode : String) (db2 : DB) (hinv : Inv db)
    (h : update_database fs db name path mode = (true, db2)) :
    Inv db2 ∧ currentCount db2 mode = 1 ∧
      ∀ r ∈ db2.recs, isCurrentIn mode r = true → r.model_name = name := by
  unfold update_database at h
  cases hf : get_model_by_name db name mode with
  | some r =>
    rw [hf] at h
    dsimp only at h
    have hr_mem : r ∈ db.recs := List.mem_of_find?_eq_some hf
    have hr_pred := List.find?_some hf
    have hr_name : r.model_name = name := by
      simp only [Bool.and_eq_true, beq_iff_eq] at hr_pred
      exact hr_pred.1
    cases hsc : set_current_model
        (update_model_download_status db r.id (fs.contains path)) r.id mode with
    | error e => rw [hsc] at h; exact absurd h (by simp)
    | ok db2x =>
      rw [hsc] at h
      simp only [Prod.mk.injEq, true_and] at h
      subst h
      have hinv1 : Inv (update_model_download_status db r.id (fs.contains path)) :=
        inv_uds db r.id (fs.contains path) hinv
      obtain ⟨hinv2, hcount, hcurid, hnames⟩ :=
        inv_set_current _ r.id mode db2x hinv1 hsc
      refine ⟨hinv2, hcount, ?_⟩
      intro r2 hr2 hcur2
      have hid2 := hcurid r2 hr2 hcur2
      obtain ⟨r1, hr1, hr1id, hr1name⟩ := hnames r2 hr2
      obtain ⟨r0, hr0, hr0id, hr0name, _, _⟩ := uds_recs db r.id
        (fs.contains path) r1 hr1
      have hr0r : r0 = r := by
        apply List.inj_on_of_nodup_map hinv.1.1 hr0 hr_mem
        rw [hr0id, hr1id, hid2]
      rw [← hr1name, ← hr0name, hr0r, hr_name]
  | none =>
    rw [hf] at h
    dsimp only at h
    cases ha : add_model fs db name path mode with
    | error e => rw [ha] at h; exact absurd h (by simp)
    | ok p =>
      obtain ⟨db1, mid⟩ := p
      rw [ha] at h
      dsimp only at h
      cases hsc : set_current_model db1 mid mode with
      | error e => rw [hsc] at h; exact absurd h (by simp)
      | ok db2x =>
        rw [hsc] at h
        simp only [Prod.mk.injEq, true_and] at h
        subst h
        obtain ⟨hinv1, hrecs1, hnid, hnext1⟩ :=
          inv_add fs db name path mode db1 mid hinv ha
        obtain ⟨hinv2, hcount, hcurid, hnames⟩ :=
          inv_set_current db1 mid mode db2x hinv1 hsc
        refine ⟨hinv2, hcount, ?_⟩
        intro r2 hr2 hcur2
        have hid2 := hcurid r2 hr2 hcur2
        obtain ⟨r1, hr1, hr1id, hr1name⟩ := hnames r2 hr2
        rw [hrecs1] at hr1
        simp only [List.mem_append, List.mem_singleton] at hr1
        rcases hr1 with hr1 | hr1
        · exfalso
          have := hinv.1.2 r1 hr1
          rw [hr1id, hid2, hnid] at this
          omega
        · rw [← hr1name, hr1]

/-- A one-record table used by concrete instances: a downloaded llm-mode
record with id 1. -/
def oneRecDB : DB := ⟨[⟨1, "m", "/models/m.gguf", none, "llm", false, true⟩], 2⟩

end ConfigDB

/-- C5: the claim's parenthetical "(and its local path exists)" is not
enforced by the store: `update_model_download_status` lets a caller set
is_downloaded = true with no file existing, after which `set_current_model`
succeeds although the record's model_path ("/x.gguf") exists nowhere (the
file system is empty). -/
theorem C5_counterexample :
    (ConfigDB.set_current_model
        (ConfigDB.run [] ConfigDB.emptyDB
          [ConfigDB.Op.addModel "m" "/x.gguf" "llm",
           ConfigDB.Op.updateDownloadStatus 1 true])
        1 "llm").toOption.isSome = true ∧
    ([] : List String).contains "/x.gguf" = false :=
  ⟨rfl, rfl⟩

/-- C5 (amended): after any sequence of store operations starting from the
empty table, at most one ModelRecord per mode has is_current = true; marking
a record current succeeds only if the record exists with is_downloaded = true
and a matching mode (path existence is not itself checked at marking time —
it only feeds is_downloaded through add_model or the download-status
update); and after two sequential successful selection updates for the same
mode, exactly one record of that mode is current and it carries the most
recently selected model's name. -/
theorem C5_at_most_one_current :
    (∀ (fs : List String) (ops : List ConfigDB.Op) (mode : String),
      ConfigDB.currentCount (ConfigDB.run fs ConfigDB.emptyDB ops) mode ≤ 1) ∧
    (∀ (db : ConfigDB.DB) (v : Nat) (mode : String) (db2 : ConfigDB.DB),
      ConfigDB.set_current_model db v mode = .ok db2 →
      ∃ r ∈ db.recs, r.id = v ∧ r.is_downloaded = true ∧ r.mode = mode) ∧
    (∀ (fs : List String) (db : ConfigDB.DB) (n1 p1 n2 p2 mode : String)
        (db1 db2 : ConfigDB.DB), ConfigDB.Inv db →
      ConfigDB.update_database fs db n1 p1 mode = (true, db1) →
      ConfigDB.update_database fs db1 n2 p2 mode = (true, db2) →
      ConfigDB.currentCount db2 mode = 1 ∧
        ∀ r ∈ db2.recs, ConfigDB.isCurrentIn mode r = true →
          r.model_name = n2) := by
  refine ⟨?_, ?_, ?_⟩
  · intro fs ops mode
    exact (ConfigDB.inv_run fs ops ConfigDB.emptyDB ConfigDB.inv_empty).2 mode
  · intro db v mode db2 h
    obtain ⟨m, hm, h1, h2, h3, _⟩ := ConfigDB.set_current_ok db v mode db2 h
    exact ⟨m, hm, h1, h2, h3⟩
  · intro fs db n1 p1 n2 p2 mode db1 db2 hinv h1 h2
    have r1 := ConfigDB.update_database_ok fs db n1 p1 mode db1 hinv h1
    have r2 := ConfigDB.update_database_ok fs db1 n2 p2 mode db2 r1.1 h2
    exact ⟨r2.2.1, r2.2.2⟩

/-- Witness for C5 at a concrete one-record table: marking record 1 current
succeeds, and the theorem recovers a downloaded llm-mode record with id 1. -/
theorem C5_at_most_one_current_witness :
    ∃ r ∈ ConfigDB.oneRecDB.recs,
      r.id = 1 ∧ r.is_downloaded = true ∧ r.mode = "llm" :=
  C5_at_most_one_current.2.1 ConfigDB.oneRecDB 1 "llm"
    ⟨[⟨1, "m", "/models/m.gguf", none, "llm", true, true⟩], 2⟩ rfl

namespace ModelSelect

/-- Process events observed on a mode's LLMServer during a selection. -/
inductive Event
  | stop
  | start
deriving DecidableEq, Repr

/-- `get_model_dir(mode)` of config.py: one canonical directory per mode,
modelled as a `mode/` prefix on file names. -/
def modeDir (mode : String) : String := mode ++ "/"

/-- The directory-scan half of `_check_model_exists` (model_select.py lines
138–149): `{model_name}.gguf`, then `{model_name}.GGUF`, in the mode's
directory. -/
def dirScan (fs : List String) (model_name mode : String) : Option String :=
  if fs.contains (modeDir mode ++ model_name ++ ".gguf") then
    some (modeDir mode ++ model_name ++ ".gguf")
  else if fs.contains (modeDir mode ++ model_name ++ ".GGUF") then
    some (modeDir mode ++ model_name ++ ".GGUF")
  else none

/-- `ModelSelectionPipeline._check_model_exists` (lines 116–152): the
database record's path when that file exists, else the directory scan. -/
def check_model_exists (db : ConfigDB.DB) (fs : List String)
    (model_name mode : String) : Option String :=
  match ConfigDB.get_model_by_name db model_name mode with
  | some r =>
    if fs.contains r.model_path then some r.model_path
    else dirScan fs model_name mode
  | none => dirScan fs model_name mode

/-- `ModelSelectionPipeline._ensure_server_running` (lines 191–279).
`Path.resolve()` normalisation is modelled as the identity on path strings.
The bounded readiness wait succeeds immediately in the model because a
successful `start_server` leaves the status RUNNING; `stop_server` always
reports success.  Returns the readiness flag, the server state, and the
stop/start events performed on the process. -/
def ensure_server_running (fs : List String) (env : Orchestrator.StartEnv)
    (srv : Orchestrator.Server) (model_name model_path : String) :
    Bool × Orchestrator.Server × List Event :=
  if Orchestrator.is_running srv = true ∧
      srv.current_model_path = some model_path then
    (true, srv, [])
  else
    let s1 := if Orchestrator.is_running srv
      then (Orchestrator.stop_server srv).2 else srv
    let evs1 : List Event :=
      if Orchestrator.is_running srv then [.stop] else []
    let r := Orchestrator.start_server fs env s1 model_path model_name
    (r.1, r.2, evs1 ++ [.start])

/-- The state a selection touches: the model_info table, the file system,
and the mode's server controller (the Server Manager's `get_server(mode)`). -/
structure SelState where
  db : ConfigDB.DB
  fs : List String
  server : Orchestrator.Server
deriving Repr

structure SelectResult where
  success : Bool
deriving DecidableEq, Repr

/-- Steps 5–6 of `select_model` once a model path is resolved: ensure the
server runs the model, then update the database; a database error is caught
by the outer handler and reported as failure. -/
def selectWithPath (st : SelState) (env : Orchestrator.StartEnv)
    (model_name model_path mode : String) :
    SelectResult × SelState × List Event :=
  let r := ensure_server_running st.fs env st.server model_name model_path
  if r.1 then
    let u := ConfigDB.update_database st.fs st.db model_name model_path mode
    (⟨u.1⟩, { st with server := r.2.1, db := u.2 }, r.2.2)
  else
    (⟨false⟩, { st with server := r.2.1 }, r.2.2)

/-- `ModelSelectionPipeline.select_model` (lines 33–114).  The downloader is
abstracted by `download`: `none` models a failed download and `some p` a
download that completed, placing file `p` on disk. -/
def select_model (st : SelState) (env : Orchestrator.StartEnv)
    (download : Option String) (model_name : String)
    (download_url : Option String) (mode : String) :
    SelectResult × SelState × List Event :=
  match check_model_exists st.db st.fs model_name mode with
  | some p => selectWithPath st env model_name p mode
  | none =>
    let url := match download_url with
      | some u => some u
      | none =>
        match ConfigDB.get_model_by_name st.db model_name mode with
        | some r => r.download_url
        | none => none
    match url with
    | none => (⟨false⟩, st, [])
    | some _ =>
      match download with
      | none => (⟨false⟩, st, [])
      | some p =>
        selectWithPath { st with fs := st.fs ++ [p] } env model_name p mode

lemma check_contains (db : ConfigDB.DB) (fs : List String)
    (model_name mode p : String)
    (h : check_model_exists db fs model_name mode = some p) :
    fs.contains p = true := by
  unfold check_model_exists at h
  have hscan : ∀ q, dirScan fs model_name mode = some q →
      fs.contains q = true := by
    intro q hq
    unfold dirScan at hq
    by_cases h1 : fs.contains (modeDir mode ++ model_name ++ ".gguf") = true
    · rw [if_pos h1] at hq
      obtain rfl : modeDir mode ++ model_name ++ ".gguf" = q := by
        simpa using hq
      exact h1
    · rw [if_neg h1] at hq
      by_cases h2 : fs.contains (modeDir mode ++ model_name ++ ".GGUF") = true
      · rw [if_pos h2] at hq
        obtain rfl : modeDir mode ++ model_name ++ ".GGUF" = q := by
          simpa using hq
        exact h2
      · rw [if_neg h2] at hq
        exact absurd hq (by simp)
  cases hf : ConfigDB.get_model_by_name db model_name mode with
  | some r =>
    rw [hf] at h
    dsimp only at h
    by_cases hc : fs.contains r.model_path = true
    · rw [if_pos hc] at h
      obtain rfl : r.model_path = p := by simpa using h
      exact hc
    · rw [if_neg hc] at h
      exact hscan p h
  | none =>
    rw [hf] at h
    exact hscan p h

lemma get_model_of_mem (db : ConfigDB.DB) (r : ConfigDB.ModelRec)
    (hid : ConfigDB.IdOk db) (hmem : r ∈ db.recs) :
    ConfigDB.get_model db r.id = some r := by
  unfold ConfigDB.get_model
  cases hf : db.recs.find? (fun x => x.id == r.id) with
  | none =>
    rw [List.find?_eq_none] at hf
    exact absurd (by simp : (r.id == r.id) = true) (hf r hmem)
  | some r2 =>
    have h2mem := List.mem_of_find?_eq_some hf
    have h2id : r2.id = r.id := by simpa using List.find?_some hf
    rw [List.inj_on_of_nodup_map hid.1 h2mem hmem h2id]

lemma update_database_true (fs : List String) (db : ConfigDB.DB)
    (name p mode : String) (hid : ConfigDB.IdOk db)
    (hp : fs.contains p = true) :
    (ConfigDB.update_database fs db name p mode).1 = true := by
  unfold ConfigDB.update_database
  cases hf : ConfigDB.get_model_by_name db name mode with
  | some r =>
    dsimp only
    have hr_mem : r ∈ db.recs := List.mem_of_find?_eq_some hf
    have hr_pred := List.find?_some hf
    have hr_mode : r.mode = mode := by
      simp only [Bool.and_eq_true, beq_iff_eq] at hr_pred
      exact hr_pred.2
    have hget : ConfigDB.get_model
        (ConfigDB.update_model_download_status db r.id (fs.contains p)) r.id =
        some { r with is_downloaded := fs.contains p } := by
      unfold ConfigDB.get_model ConfigDB.update_model_download_status
      rw [List.find?_map]
      have hcomp : ((fun x : ConfigDB.ModelRec => x.id == r.id) ∘ fun x =>
          if x.id == r.id then { x with is_downloaded := fs.contains p }
          else x) = fun x => x.id == r.id := by
        funext x
        simp only [Function.comp_apply]
        by_cases hx : (x.id == r.id) = true <;> simp [hx]
      rw [hcomp]
      have := get_model_of_mem db r hid hr_mem
      unfold ConfigDB.get_model at this
      rw [this]
      simp
    have hpm : p ∈ fs := by simpa using hp
    unfold ConfigDB.set_current_model
    rw [hget]
    dsimp only
    rw [if_neg (by simp [hpm]), if_neg (by simp [hr_mode])]
  | none =>
    dsimp only
    cases ha : ConfigDB.add_model fs db name p mode with
    | error e =>
      exfalso
      unfold ConfigDB.add_model at ha
      rw [if_neg (by rw [hf]; simp)] at ha
      exact absurd ha (by simp)
    | ok q =>
      obtain ⟨db1, mid⟩ := q
      dsimp only
      unfold ConfigDB.add_model at ha
      rw [if_neg (by rw [hf]; simp)] at ha
      simp only [Except.ok.injEq, Prod.mk.injEq] at ha
      obtain ⟨hdb1, hmid⟩ := ha
      have hget : ConfigDB.get_model db1 mid = some
          { id := db.nextId, model_name := name, model_path := p,
            download_url := none, mode := mode, is_current := false,
            is_downloaded := fs.contains p } := by
        rw [← hdb1, ← hmid]
        unfold ConfigDB.get_model
        dsimp only
        rw [List.find?_append]
        have h1 : db.recs.find? (fun x => x.id == db.nextId) = none := by
          rw [List.find?_eq_none]
          intro x hx hxid
          have := hid.2 x hx
          simp only [beq_iff_eq] at hxid
          omega
        rw [h1]
        simp
      have hpm : p ∈ fs := by simpa using hp
      unfold ConfigDB.set_current_model
      rw [hget]
      dsimp only
      rw [if_neg (by simp [hpm]), if_neg (by simp)]

end ModelSelect

/-- C4: selecting a model that is already RUNNING under the requested mode
(the controller's current model path equals the resolved target path) is a
no-op success: the pipeline performs no stop or start on the live process,
leaves the server state untouched, and returns success. -/
theorem C4_reselect_running_noop (st : ModelSelect.SelState)
    (env : Orchestrator.StartEnv) (download : Option String)
    (model_name : String) (download_url : Option String) (mode : String)
    (p : String) (hid : ConfigDB.IdOk st.db)
    (hres : ModelSelect.check_model_exists st.db st.fs model_name mode = some p)
    (hrun : Orchestrator.is_running st.server = true)
    (hpath : st.server.current_model_path = some p) :
    (ModelSelect.select_model st env download model_name download_url
        mode).1.success = true ∧
    (ModelSelect.select_model st env download model_name download_url
        mode).2.2 = [] ∧
    (ModelSelect.select_model st env download model_name download_url
        mode).2.1.server = st.server := by
  have hp : st.fs.contains p = true :=
    ModelSelect.check_contains st.db st.fs model_name mode p hres
  have hsel : ModelSelect.select_model st env download model_name download_url
      mode = ModelSelect.selectWithPath st env model_name p mode := by
    unfold ModelSelect.select_model
    rw [hres]
  have hens : ModelSelect.ensure_server_running st.fs env st.server
      model_name p = (true, st.server, []) := by
    unfold ModelSelect.ensure_server_running
    rw [if_pos ⟨hrun, hpath⟩]
  have hupd := ModelSelect.update_database_true st.fs st.db model_name p mode
    hid hp
  rw [hsel]
  unfold ModelSelect.selectWithPath
  rw [hens]
  simp only [if_pos rfl]
  exact ⟨hupd, rfl, rfl⟩

/-- Witness for C4: re-selecting the running model "m" on a one-record
database is a no-op success. -/
theorem C4_reselect_running_noop_witness :
    (ModelSelect.select_model
        ⟨ConfigDB.oneRecDB, ["/models/m.gguf"],
         ⟨4096, 4, 0, 512, true, some "m", some "/models/m.gguf",
          .running, none⟩⟩
        ⟨true, true⟩ none "m" none "llm").1.success = true ∧
    (ModelSelect.select_model
        ⟨ConfigDB.oneRecDB, ["/models/m.gguf"],
         ⟨4096, 4, 0, 512, true, some "m", some "/models/m.gguf",
          .running, none⟩⟩
        ⟨true, true⟩ none "m" none "llm").2.2 = [] ∧
    (ModelSelect.select_model
        ⟨ConfigDB.oneRecDB, ["/models/m.gguf"],
         ⟨4096, 4, 0, 512, true, some "m", some "/models/m.gguf",
          .running, none⟩⟩
        ⟨true, true⟩ none "m" none "llm").2.1.server =
      ⟨4096, 4, 0, 512, true, some "m", some "/models/m.gguf",
       .running, none⟩ :=
  C4_reselect_running_noop
    ⟨ConfigDB.oneRecDB, ["/models/m.gguf"],
     ⟨4096, 4, 0, 512, true, some "m", some "/models/m.gguf", .running, none⟩⟩
    ⟨true, true⟩ none "m" none "llm" "/models/m.gguf"
    ⟨by decide, by decide⟩ (by rfl) rfl rfl

namespace Chat

/-- One item produced by the inference client's stream as observed by
`generate()`: either a chunk dict carrying `data` and `done_flag`, or an
exception raised while iterating. -/
inductive StreamItem
  | chunk (data : String) (done_flag : Bool)
  | raise (msg : String)
deriving DecidableEq, Repr

/-- One SSE event forwarded to the caller: a chunk forwarded verbatim, or
the error event emitted by the except handler of `generate()`. -/
inductive Sent
  | chunk (data : String) (done_flag : Bool)
  | errorEvent (msg : String)
deriving DecidableEq, Repr

/-- A persisted message row as written by `db_session.add_message`
(id/session/timestamp bookkeeping omitted). -/
structure Msg where
  role : String
  content : String
  token_count : Int
deriving DecidableEq, Repr

/-- Codepoints of a string, bridging to the token-estimator embedding. -/
def strCodes (s : String) : List Nat := s.data.map (fun c => c.toNat)

/-- The async-for loop of `generate()` (chat.py lines 127–139): consume
items until an exception or a chunk with `done_flag`, forwarding every
consumed chunk verbatim and accumulating its `data` text; an exception
forwards one error event in place of further chunks.  Returns the forwarded
events, the accumulated assistant text, and whether an exception occurred. -/
def runStream : List StreamItem → List Sent × String × Bool
  | [] => ([], "", false)
  | .raise m :: _ => ([.errorEvent m], "", true)
  | .chunk d done :: rest =>
    if done then ([.chunk d done], d, false)
    else
      let r := runStream rest
      (.chunk d done :: r.1, d ++ r.2.1, r.2.2)

def sentData : Sent → String
  | .chunk d _ => d
  | .errorEvent _ => ""

def concatData : List Sent → String
  | [] => ""
  | e :: es => sentData e ++ concatData es

/-- `ChatPipeline.process_chat` (chat.py lines 104–155) restricted to its
message flow: the user message is persisted (`add_message`) before the
streaming request is issued; after a normal stream completion the non-empty
accumulated text is persisted as one assistant message; after an exception
nothing further is persisted.  `db` is the session's message list. -/
def process_chat (db : List Msg) (userMsg : String)
    (items : List StreamItem) : List Msg × List Sent :=
  let db1 := db ++ [⟨"user", userMsg,
    TokenEstimator.estimate_message_tokens (strCodes "user")
      (strCodes userMsg)⟩]
  let r := runStream items
  let db2 :=
    if r.2.2 = false ∧ r.2.1 ≠ "" then
      db1 ++ [⟨"assistant", r.2.1,
        TokenEstimator.estimate_message_tokens (strCodes "assistant")
          (strCodes r.2.1)⟩]
    else db1
  (db2, r.1)

lemma runStream_ok (items : List StreamItem)
    (h : (runStream items).2.2 = false) :
    (runStream items).2.1 = concatData (runStream items).1 ∧
      ∀ e ∈ (runStream items).1, ∃ d f, e = Sent.chunk d f := by
  induction items with
  | nil => exact ⟨rfl, fun e he => absurd he (List.not_mem_nil e)⟩
  | cons it rest ih =>
    cases it with
    | raise m =>
      have htrue : (runStream (StreamItem.raise m :: rest)).2.2 = true := rfl
      rw [htrue] at h
      exact absurd h (by decide)
    | chunk d done =>
      by_cases hd : done = true
      · subst hd
        have hred : runStream (StreamItem.chunk d true :: rest) =
            ([Sent.chunk d true], d, false) := rfl
        rw [hred]
        dsimp only
        refine ⟨?_, ?_⟩
        · show d = d ++ concatData []
          simp [concatData]
        · intro e he
          simp only [List.mem_singleton] at he
          exact ⟨d, true, he⟩
      · simp only [Bool.not_eq_true] at hd
        subst hd
        have hred : runStream (StreamItem.chunk d false :: rest) =
            (Sent.chunk d false :: (runStream rest).1,
             d ++ (runStream rest).2.1, (runStream rest).2.2) := rfl
        rw [hred] at h ⊢
        dsimp only at h ⊢
        obtain ⟨h1, h2⟩ := ih h
        refine ⟨?_, ?_⟩
        · show d ++ (runStream rest).2.1 =
            concatData (Sent.chunk d false :: (runStream rest).1)
          rw [h1]
          rfl
        · intro e he
          simp only [List.mem_cons] at he
          rcases he with he | he
          · exact ⟨d, false, he⟩
          · exact h2 e he

lemma runStream_err (items : List StreamItem)
    (h : (runStream items).2.2 = true) :
    ∃ pre m, (runStream items).1 = pre ++ [Sent.errorEvent m] ∧
      ∀ e ∈ pre, ∃ d f, e = Sent.chunk d f := by
  induction items with
  | nil =>
    have hfalse : (runStream ([] : List StreamItem)).2.2 = false := rfl
    rw [hfalse] at h
    exact absurd h (by decide)
  | cons it rest ih =>
    cases it with
    | raise m => exact ⟨[], m, rfl, by simp⟩
    | chunk d done =>
      by_cases hd : done = true
      · subst hd
        have hfalse : (runStream (StreamItem.chunk d true :: rest)).2.2 =
            false := rfl
        rw [hfalse] at h
        exact absurd h (by decide)
      · simp only [Bool.not_eq_true] at hd
        subst hd
        have hred : runStream (StreamItem.chunk d false :: rest) =
            (Sent.chunk d false :: (runStream rest).1,
             d ++ (runStream rest).2.1, (runStream rest).2.2) := rfl
        rw [hred] at h ⊢
        dsimp only at h ⊢
        obtain ⟨pre, m, h1, h2⟩ := ih h
        refine ⟨Sent.chunk d false :: pre, m, by rw [h1]; rfl, ?_⟩
        intro e he
        simp only [List.mem_cons] at he
        rcases he with he | he
        · exact ⟨d, false, he⟩
        · exact h2 e he

end Chat

/-- C6: in a chat call the new user message is persisted before the stream
is consumed and remains in all outcomes; on normal completion the
accumulated assistant text, if non-empty, is persisted as exactly one
assistant message whose content equals the concatenation of the forwarded
chunk contents (and nothing is persisted when it is empty); on an exception
the forwarded events are the chunks so far followed by one error event, and
no assistant message is persisted. -/
theorem C6_chat_persistence (db : List Chat.Msg) (userMsg : String)
    (items : List Chat.StreamItem) :
    (∃ rest, (Chat.process_chat db userMsg items).1 =
      db ++ ⟨"user", userMsg,
        TokenEstimator.estimate_message_tokens (Chat.strCodes "user")
          (Chat.strCodes userMsg)⟩ :: rest) ∧
    ((Chat.runStream items).2.2 = false → (Chat.runStream items).2.1 ≠ "" →
      (Chat.process_chat db userMsg items).1 =
        db ++ [⟨"user", userMsg,
          TokenEstimator.estimate_message_tokens (Chat.strCodes "user")
            (Chat.strCodes userMsg)⟩,
          ⟨"assistant",
            Chat.concatData (Chat.process_chat db userMsg items).2,
            TokenEstimator.estimate_message_tokens (Chat.strCodes "assistant")
              (Chat.strCodes (Chat.concatData
                (Chat.process_chat db userMsg items).2))⟩]) ∧
    ((Chat.runStream items).2.2 = false → (Chat.runStream items).2.1 = "" →
      (Chat.process_chat db userMsg items).1 =
        db ++ [⟨"user", userMsg,
          TokenEstimator.estimate_message_tokens (Chat.strCodes "user")
            (Chat.strCodes userMsg)⟩]) ∧
    ((Chat.runStream items).2.2 = true →
      (Chat.process_chat db userMsg items).1 =
        db ++ [⟨"user", userMsg,
          TokenEstimator.estimate_message_tokens (Chat.strCodes "user")
            (Chat.strCodes userMsg)⟩] ∧
      ∃ pre m, (Chat.process_chat db userMsg items).2 =
          pre ++ [Chat.Sent.errorEvent m] ∧
        ∀ e ∈ pre, ∃ d f, e = Chat.Sent.chunk d f) := by
  refine ⟨?_, ?_, ?_, ?_⟩
  · unfold Chat.process_chat
    dsimp only
    by_cases hc : (Chat.runStream items).2.2 = false ∧
        (Chat.runStream items).2.1 ≠ ""
    · refine ⟨[⟨"assistant", (Chat.runStream items).2.1,
        TokenEstimator.estimate_message_tokens (Chat.strCodes "assistant")
          (Chat.strCodes (Chat.runStream items).2.1)⟩], ?_⟩
      rw [if_pos hc]
      simp
    · refine ⟨[], ?_⟩
      rw [if_neg hc]
  · intro herr hne
    have hacc := (Chat.runStream_ok items herr).1
    unfold Chat.process_chat
    dsimp only
    rw [if_pos ⟨herr, hne⟩, hacc]
    simp
  · intro herr he
    unfold Chat.process_chat
    dsimp only
    rw [if_neg (by simp [he])]
  · intro herr
    constructor
    · unfold Chat.process_chat
      dsimp only
      rw [if_neg (by simp [herr])]
    · exact Chat.runStream_err items herr

/-- Witness for C6 at a concrete run: empty history, user message "2+2?",
and a stream of two chunks ("4", then an empty done chunk). -/
theorem C6_chat_persistence_witness :
    (∃ rest, (Chat.process_chat [] "2+2?"
      [Chat.StreamItem.chunk "4" false, Chat.StreamItem.chunk "" true]).1 =
      [] ++ ⟨"user", "2+2?",
        TokenEstimator.estimate_message_tokens (Chat.strCodes "user")
          (Chat.strCodes "2+2?")⟩ :: rest) ∧
    ((Chat.runStream [Chat.StreamItem.chunk "4" false,
        Chat.StreamItem.chunk "" true]).2.2 = false →
      (Chat.runStream [Chat.StreamItem.chunk "4" false,
        Chat.StreamItem.chunk "" true]).2.1 ≠ "" →
      (Chat.process_chat [] "2+2?"
        [Chat.StreamItem.chunk "4" false, Chat.StreamItem.chunk "" true]).1 =
        [] ++ [⟨"user", "2+2?",
          TokenEstimator.estimate_message_tokens (Chat.strCodes "user")
            (Chat.strCodes "2+2?")⟩,
          ⟨"assistant",
            Chat.concatData (Chat.process_chat [] "2+2?"
              [Chat.StreamItem.chunk "4" false,
               Chat.StreamItem.chunk "" true]).2,
            TokenEstimator.estimate_message_tokens (Chat.strCodes "assistant")
              (Chat.strCodes (Chat.concatData
                (Chat.process_chat [] "2+2?"
                  [Chat.StreamItem.chunk "4" false,
                   Chat.StreamItem.chunk "" true]).2))⟩]) ∧
    ((Chat.runStream [Chat.StreamItem.chunk "4" false,
        Chat.StreamItem.chunk "" true]).2.2 = false →
      (Chat.runStream [Chat.StreamItem.chunk "4" false,
        Chat.StreamItem.chunk "" true]).2.1 = "" →
      (Chat.process_chat [] "2+2?"
        [Chat.StreamItem.chunk "4" false, Chat.StreamItem.chunk "" true]).1 =
        [] ++ [⟨"user", "2+2?",
          TokenEstimator.estimate_message_tokens (Chat.strCodes "user")
            (Chat.strCodes "2+2?")⟩]) ∧
    ((Chat.runStream [Chat.StreamItem.chunk "4" false,
        Chat.StreamItem.chunk "" true]).2.2 = true →
      (Chat.process_chat [] "2+2?"
        [Chat.StreamItem.chunk "4" false, Chat.StreamItem.chunk "" true]).1 =
        [] ++ [⟨"user", "2+2?",
          TokenEstimator.estimate_message_tokens (Chat.strCodes "user")
            (Chat.strCodes "2+2?")⟩] ∧
      ∃ pre m, (Chat.process_chat [] "2+2?"
          [Chat.StreamItem.chunk "4" false,
           Chat.StreamItem.chunk "" true]).2 =
          pre ++ [Chat.Sent.errorEvent m] ∧
        ∀ e ∈ pre, ∃ d f, e = Chat.Sent.chunk d f) :=
  C6_chat_persistence [] "2+2?"
    [Chat.StreamItem.chunk "4" false, Chat.StreamItem.chunk "" true]

namespace Download

/-- A directory as observed by the downloader: an association of file names
to byte sizes (only sizes matter to the download logic). -/
structure FS where
  files : List (String × Nat)
deriving DecidableEq, Repr

def FS.size? (fs : FS) (p : String) : Option Nat :=
  (fs.files.find? (fun e => e.1 == p)).map (fun e => e.2)

/-- `Path.exists()`. -/
def FS.pathExists (fs : FS) (p : String) : Bool := (fs.size? p).isSome

/-- Writing `n` bytes at `p` (creating or replacing the file). -/
def FS.write (fs : FS) (p : String) (n : Nat) : FS :=
  if fs.pathExists p then
    ⟨fs.files.map (fun e => if e.1 == p then (p, n) else e)⟩
  else ⟨fs.files ++ [(p, n)]⟩

/-- `Path.unlink()`. -/
def FS.unlink (fs : FS) (p : String) : FS :=
  ⟨fs.files.filter (fun e => !(e.1 == p))⟩

/-- `Path.rename(dst)`: atomic replacement of dst by src's content. -/
def FS.rename (fs : FS) (src dst : String) : FS :=
  match fs.size? src with
  | none => fs
  | some n => (fs.unlink src).write dst n

/-- File names present, bridging to the path-list file system of the
selection pipeline. -/
def FS.paths (fs : FS) : List String := fs.files.map (fun e => e.1)

inductive DLStatus
  | downloading
  | completed
  | failed
deriving DecidableEq, Repr

/-- The downloader's mutable state: the download directory and the
`active_downloads` registry keyed by URL. -/
structure DLState where
  fs : FS
  tasks : List (String × DLStatus)
deriving DecidableEq, Repr

/-- `self.active_downloads[url] = {...}` (insert or overwrite by URL). -/
def setTask (ts : List (String × DLStatus)) (url : String) (st : DLStatus) :
    List (String × DLStatus) :=
  if (ts.find? (fun e => e.1 == url)).isSome then
    ts.map (fun e => if e.1 == url then (url, st) else e)
  else ts ++ [(url, st)]

/-- What one HTTP streaming response delivers: the declared content length
(`int(headers.get('content-length', 0))`, 0 when the header is absent), the
byte counts of the chunks actually received, and whether the stream raises
an exception after those chunks. -/
structure Response where
  contentLength : Nat
  chunks : List Nat
  interrupted : Bool
deriving DecidableEq, Repr

/-- Outcome of one `download_model` call: final state, returned path
(`none` models a propagated exception), whether an HTTP request was issued,
the progress-callback invocations, and the directory snapshots after the
open and after each chunk write. -/
structure Result where
  state : DLState
  ret : Option String
  requested : Bool
  progress : List (Nat × Nat × Rat)
  midFs : List FS
deriving DecidableEq, Repr

/-- The chunk-writing loop: each iteration appends one chunk to the open
file (tracked as the file's growing size). -/
def streamLoop (path : String) : FS → Nat → List Nat → FS × Nat × List FS
  | fs, written, [] => (fs, written, [])
  | fs, written, n :: rest =>
    let fs2 := fs.write path (written + n)
    let r := streamLoop path fs2 (written + n) rest
    (r.1, r.2.1, fs2 :: r.2.2)

/-- `open(path, 'wb')` truncates/creates the file, then the chunks are
appended in order.  Returns the final directory, the byte count, and the
snapshots (after the open and after each write). -/
def streamTo (fs : FS) (path : String) (chunks : List Nat) :
    FS × Nat × List FS :=
  let fs0 := fs.write path 0
  let r := streamLoop path fs0 0 chunks
  (r.1, r.2.1, fs0 :: r.2.2)

/-- Running prefix sums of the chunk sizes (the `downloaded` counter). -/
def prefixSums (chunks : List Nat) : List Nat :=
  (chunks.foldl (fun (acc : Nat × List Nat) n =>
    (acc.1 + n, acc.2 ++ [acc.1 + n])) (0, [])).2

/-- The progress-callback invocations during streaming: one per chunk, only
when a content length was declared. -/
def progressEvents (total : Nat) (chunks : List Nat) : List (Nat × Nat × Rat) :=
  if total = 0 then []
  else (prefixSums chunks).map
    (fun d => (d, total, ((d : Rat) * 100) / (total : Rat)))

/-- `urlparse(url).path`'s last segment (query strings are not modelled). -/
def lastSegment : List Char → List Char → List Char
  | acc, [] => acc
  | acc, c :: cs => if c = '/' then lastSegment [] cs else lastSegment (acc ++ [c]) cs

/-- `ModelDownloader._get_filename_from_url` (both copies, lines 28–42):
the URL's last path segment, defaulting to "model.gguf". -/
def get_filename_from_url (url : String) : String :=
  let name := lastSegment [] url.data
  if name.isEmpty then "model.gguf" else ⟨name⟩

/-- Lines 78–81 of the spacemit downloader: an unfinished `.tmp` artifact
from an earlier run is deleted before the new download starts. -/
def preFs (st : DLState) (filename : String) : FS :=
  if st.fs.pathExists (filename ++ ".tmp") then
    st.fs.unlink (filename ++ ".tmp")
  else st.fs

/-- The streaming phase of the spacemit downloader: the chunks are written
into the temporary path. -/
def streamS (st : DLState) (filename : String) (resp : Response) :
    FS × Nat × List FS :=
  streamTo (preFs st filename) (filename ++ ".tmp") resp.chunks

/-- `ModelDownloader.download_model` of
src/backend/spacemit_llm/model/download.py (lines 44–150): early-return when
the target exists; remove a stale `.tmp`; register the task; stream to the
temporary path; verify the byte count against the declared content length;
rename into place; on any exception mark the task failed, delete the
temporary file and re-raise.  The download directory prefix is left implicit
(file names stand for full paths). -/
def spacemit_download (st : DLState) (url filename : String)
    (resp : Response) : Result :=
  let file_path := filename
  let temp_path := filename ++ ".tmp"
  if st.fs.pathExists file_path then
    { state := st, ret := some file_path, requested := false,
      progress := [((st.fs.size? file_path).getD 0,
        (st.fs.size? file_path).getD 0, 100)],
      midFs := [] }
  else
    let tasks0 := setTask st.tasks url .downloading
    let s := streamS st filename resp
    let evs := progressEvents resp.contentLength resp.chunks
    if resp.interrupted then
      let fsB := if s.1.pathExists temp_path then s.1.unlink temp_path else s.1
      { state := ⟨fsB, setTask tasks0 url .failed⟩, ret := none,
        requested := true, progress := evs, midFs := s.2.2 }
    else if resp.contentLength ≠ 0 ∧ s.2.1 ≠ resp.contentLength then
      let fsB := if s.1.pathExists temp_path then s.1.unlink temp_path else s.1
      { state := ⟨fsB, setTask tasks0 url .failed⟩, ret := none,
        requested := true, progress := evs, midFs := s.2.2 }
    else
      { state := ⟨s.1.rename temp_path file_path,
          setTask tasks0 url .completed⟩,
        ret := some file_path, requested := true, progress := evs,
        midFs := s.2.2 }

/-- The streaming phase of the src downloader: the chunks are written
directly into the final file name. -/
def streamR (st : DLState) (filename : String) (resp : Response) :
    FS × Nat × List FS :=
  streamTo st.fs filename resp.chunks

/-- `ModelDownloader.download_model` of src/backend/src/model/download.py
(lines 44–131): same early-return and task bookkeeping, but the stream is
written directly to the final file name — no temporary path, no byte-count
verification, no rename; on an exception the partially-written final file is
deleted and the exception re-raised. -/
def src_download (st : DLState) (url filename : String)
    (resp : Response) : Result :=
  let file_path := filename
  if st.fs.pathExists file_path then
    { state := st, ret := some file_path, requested := false,
      progress := [((st.fs.size? file_path).getD 0,
        (st.fs.size? file_path).getD 0, 100)],
      midFs := [] }
  else
    let tasks0 := setTask st.tasks url .downloading
    let s := streamR st filename resp
    let evs := progressEvents resp.contentLength resp.chunks
    if resp.interrupted then
      let fsB := if s.1.pathExists file_path then s.1.unlink file_path else s.1
      { state := ⟨fsB, setTask tasks0 url .failed⟩, ret := none,
        requested := true, progress := evs, midFs := s.2.2 }
    else
      { state := ⟨s.1, setTask tasks0 url .completed⟩, ret := some file_path,
        requested := true, progress := evs, midFs := s.2.2 }

lemma find?_map_write (l : List (String × Nat)) (p : String) (n : Nat)
    (h : (l.find? (fun e => e.1 == p)).isSome = true) :
    (l.map (fun e => if e.1 == p then (p, n) else e)).find?
      (fun e => e.1 == p) = some (p, n) := by
  induction l with
  | nil => simp at h
  | cons e rest ih =>
    by_cases he : (e.1 == p) = true
    · rw [List.map_cons, if_pos he, List.find?_cons_of_pos _ (by simp)]
    · rw [List.find?_cons_of_neg _ (by simp [he])] at h
      rw [List.map_cons, if_neg he, List.find?_cons_of_neg _ (by simp [he])]
      exact ih h

lemma size?_write_self (fs : FS) (p : String) (n : Nat) :
    (fs.write p n).size? p = some n := by
  unfold FS.write
  by_cases h : fs.pathExists p = true
  · rw [if_pos h]
    unfold FS.size?
    dsimp only
    rw [find?_map_write fs.files p n
      (by unfold FS.pathExists FS.size? at h; simpa using h)]
    rfl
  · rw [if_neg h]
    unfold FS.size?
    dsimp only
    rw [List.find?_append]
    have h1 : fs.files.find? (fun e => e.1 == p) = none := by
      unfold FS.pathExists FS.size? at h
      cases hf : fs.files.find? (fun e => e.1 == p) with
      | none => rfl
      | some e => rw [hf] at h; simp at h
    have h2 : [(p, n)].find? (fun e => e.1 == p) = some (p, n) :=
      List.find?_cons_of_pos _ (by simp)
    rw [h1, h2]
    rfl

lemma find?_write_other (l : List (String × Nat)) (p q : String) (n : Nat)
    (hq : q ≠ p) :
    (l.map (fun e => if e.1 == p then (p, n) else e)).find?
      (fun e => e.1 == q) = l.find? (fun e => e.1 == q) := by
  induction l with
  | nil => rfl
  | cons e rest ih =>
    rw [List.map_cons]
    by_cases he : (e.1 == p) = true
    · have heq : e.1 = p := by simpa using he
      rw [if_pos he,
        List.find?_cons_of_neg _
          (by simp only [beq_iff_eq]; exact fun hc => hq hc.symm),
        List.find?_cons_of_neg _
          (by simp only [beq_iff_eq, heq]; exact fun hc => hq hc.symm)]
      exact ih
    · rw [if_neg he]
      by_cases heq2 : (e.1 == q) = true
      · simp only [List.find?_cons, heq2]
      · rw [List.find?_cons_of_neg _ (by simp [heq2]),
          List.find?_cons_of_neg _ (by simp [heq2])]
        exact ih

lemma size?_write_other (fs : FS) (p q : String) (n : Nat) (hq : q ≠ p) :
    (fs.write p n).size? q = fs.size? q := by
  unfold FS.write
  by_cases h : fs.pathExists p = true
  · rw [if_pos h]
    unfold FS.size?
    dsimp only
    rw [find?_write_other fs.files p q n hq]
  · rw [if_neg h]
    unfold FS.size?
    dsimp only
    rw [List.find?_append]
    have h2 : [(p, n)].find? (fun e => e.1 == q) = none := by
      rw [List.find?_eq_none]
      intro x hx
      simp only [List.mem_singleton] at hx
      subst hx
      simp only [beq_iff_eq]
      exact fun hc => hq hc.symm
    rw [h2, Option.or_none]

lemma pathExists_write_other (fs : FS) (p q : String) (n : Nat) (hq : q ≠ p) :
    (fs.write p n).pathExists q = fs.pathExists q := by
  unfold FS.pathExists
  rw [size?_write_other fs p q n hq]

lemma find?_filter_ne (l : List (String × Nat)) (p q : String) (hq : q ≠ p) :
    (l.filter (fun e => !(e.1 == p))).find? (fun e => e.1 == q) =
      l.find? (fun e => e.1 == q) := by
  induction l with
  | nil => rfl
  | cons e rest ih =>
    by_cases he : (e.1 == p) = true
    · have heq : e.1 = p := by simpa using he
      rw [List.filter_cons_of_neg (by simp [he]),
        List.find?_cons_of_neg _
          (by simp only [beq_iff_eq, heq]; exact fun hc => hq hc.symm)]
      exact ih
    · rw [List.filter_cons_of_pos (by simp [he])]
      by_cases heq2 : (e.1 == q) = true
      · simp only [List.find?_cons, heq2]
      · rw [List.find?_cons_of_neg _ (by simp [heq2]),
          List.find?_cons_of_neg _ (by simp [heq2])]
        exact ih

lemma size?_unlink_self (fs : FS) (p : String) :
    (fs.unlink p).size? p = none := by
  unfold FS.unlink FS.size?
  dsimp only
  have h1 : (fs.files.filter (fun e => !(e.1 == p))).find?
      (fun e => e.1 == p) = none := by
    rw [List.find?_eq_none]
    intro e he
    rw [List.mem_filter] at he
    simpa using he.2
  rw [h1]
  rfl

lemma size?_unlink_other (fs : FS) (p q : String) (hq : q ≠ p) :
    (fs.unlink p).size? q = fs.size? q := by
  unfold FS.unlink FS.size?
  dsimp only
  rw [find?_filter_ne fs.files p q hq]

lemma pathExists_unlink_self (fs : FS) (p : String) :
    (fs.unlink p).pathExists p = false := by
  unfold FS.pathExists
  rw [size?_unlink_self]
  rfl

lemma pathExists_unlink_other (fs : FS) (p q : String) (hq : q ≠ p) :
    (fs.unlink p).pathExists q = fs.pathExists q := by
  unfold FS.pathExists
  rw [size?_unlink_other fs p q hq]

end Download

namespace Download

lemma streamLoop_count (path : String) (cs : List Nat) :
    ∀ (fs : FS) (w : Nat), (streamLoop path fs w cs).2.1 = w + cs.sum := by
  induction cs with
  | nil => intro fs w; simp [streamLoop]
  | cons n rest ih =>
    intro fs w
    show (streamLoop path (fs.write path (w + n)) (w + n) rest).2.1 =
      w + (n :: rest).sum
    rw [ih]
    simp [Nat.add_assoc]

lemma streamLoop_size (path : String) (cs : List Nat) :
    ∀ (fs : FS) (w : Nat), fs.size? path = some w →
      (streamLoop path fs w cs).1.size? path = some (w + cs.sum) := by
  induction cs with
  | nil => intro fs w h; simpa using h
  | cons n rest ih =>
    intro fs w h
    show (streamLoop path (fs.write path (w + n)) (w + n) rest).1.size? path =
      some (w + (n :: rest).sum)
    rw [show w + (n :: rest).sum = (w + n) + rest.sum from by
      simp [Nat.add_assoc]]
    exact ih _ _ (size?_write_self fs path (w + n))

lemma streamLoop_other (path q : String) (hq : q ≠ path) (cs : List Nat) :
    ∀ (fs : FS) (w : Nat), (streamLoop path fs w cs).1.size? q = fs.size? q := by
  induction cs with
  | nil => intro fs w; rfl
  | cons n rest ih =>
    intro fs w
    show (streamLoop path (fs.write path (w + n)) (w + n) rest).1.size? q =
      fs.size? q
    rw [ih, size?_write_other _ _ _ _ hq]

lemma streamLoop_mid (path q : String) (hq : q ≠ path) (cs : List Nat) :
    ∀ (fs : FS) (w : Nat), ∀ m ∈ (streamLoop path fs w cs).2.2,
      m.size? q = fs.size? q := by
  induction cs with
  | nil => intro fs w m hm; exact absurd hm (List.not_mem_nil m)
  | cons n rest ih =>
    intro fs w m hm
    have hm2 : m ∈ fs.write path (w + n) ::
        (streamLoop path (fs.write path (w + n)) (w + n) rest).2.2 := hm
    rcases List.mem_cons.mp hm2 with hm3 | hm3
    · subst hm3; exact size?_write_other _ _ _ _ hq
    · rw [ih _ _ m hm3, size?_write_other _ _ _ _ hq]

lemma streamTo_size (fs : FS) (path : String) (cs : List Nat) :
    (streamTo fs path cs).1.size? path = some cs.sum := by
  unfold streamTo
  dsimp only
  have := streamLoop_size path cs (fs.write path 0) 0
    (size?_write_self fs path 0)
  simpa using this

lemma streamTo_count (fs : FS) (path : String) (cs : List Nat) :
    (streamTo fs path cs).2.1 = cs.sum := by
  unfold streamTo
  dsimp only
  rw [streamLoop_count]
  simp

lemma streamTo_other (fs : FS) (path q : String) (hq : q ≠ path)
    (cs : List Nat) : (streamTo fs path cs).1.size? q = fs.size? q := by
  unfold streamTo
  dsimp only
  rw [streamLoop_other path q hq, size?_write_other _ _ _ _ hq]

lemma streamTo_mid (fs : FS) (path q : String) (hq : q ≠ path)
    (cs : List Nat) : ∀ m ∈ (streamTo fs path cs).2.2,
      m.size? q = fs.size? q := by
  intro m hm
  have hm2 : m ∈ fs.write path 0 ::
      (streamLoop path (fs.write path 0) 0 cs).2.2 := hm
  rcases List.mem_cons.mp hm2 with hm3 | hm3
  · subst hm3; exact size?_write_other _ _ _ _ hq
  · rw [streamLoop_mid path q hq cs _ _ m hm3, size?_write_other _ _ _ _ hq]

lemma size?_rename_dst (fs : FS) (src dst : String) (n : Nat)
    (h : fs.size? src = some n) : (fs.rename src dst).size? dst = some n := by
  unfold FS.rename
  rw [h]
  exact size?_write_self _ _ _

lemma size?_rename_src (fs : FS) (src dst : String) (hne : src ≠ dst)
    (n : Nat) (h : fs.size? src = some n) :
    (fs.rename src dst).size? src = none := by
  unfold FS.rename
  rw [h, size?_write_other _ _ _ _ hne, size?_unlink_self]

lemma size?_rename_other (fs : FS) (src dst q : String) (hq1 : q ≠ src)
    (hq2 : q ≠ dst) : (fs.rename src dst).size? q = fs.size? q := by
  unfold FS.rename
  cases h : fs.size? src with
  | none => rfl
  | some n => rw [size?_write_other _ _ _ _ hq2, size?_unlink_other _ _ _ hq1]

lemma tmp_ne (s : String) : s ++ ".tmp" ≠ s := by
  intro h
  have h2 := congrArg String.length h
  rw [String.length_append] at h2
  have h3 : (".tmp" : String).length = 4 := rfl
  omega

lemma contains_paths (fs : FS) (p : String) :
    (FS.paths fs).contains p = fs.pathExists p := by
  unfold FS.paths FS.pathExists FS.size?
  induction fs.files with
  | nil => rfl
  | cons e rest ih =>
    simp only [List.map_cons, List.contains_cons]
    by_cases he : (e.1 == p) = true
    · have hpe : (p == e.1) = true := by
        simp only [beq_iff_eq] at he ⊢; exact he.symm
      simp [List.find?_cons, he, hpe]
    · have hpe : (p == e.1) = false := by
        rw [beq_eq_false_iff_ne]
        simp only [beq_iff_eq] at he
        exact fun hc => he hc.symm
      simp only [List.find?_cons, he, hpe, Bool.false_or]
      exact ih

end Download

namespace Download

lemma streamS_temp_exists (st : DLState) (filename : String)
    (resp : Response) :
    (streamS st filename resp).1.pathExists (filename ++ ".tmp") = true := by
  unfold streamS FS.pathExists
  rw [streamTo_size]
  rfl

lemma streamS_size (st : DLState) (filename : String) (resp : Response) :
    (streamS st filename resp).1.size? (filename ++ ".tmp") =
      some resp.chunks.sum := by
  unfold streamS
  exact streamTo_size _ _ _

lemma streamS_count (st : DLState) (filename : String) (resp : Response) :
    (streamS st filename resp).2.1 = resp.chunks.sum := by
  unfold streamS
  exact streamTo_count _ _ _

lemma preFs_other (st : DLState) (filename q : String)
    (hq : q ≠ filename ++ ".tmp") : (preFs st filename).size? q =
      st.fs.size? q := by
  unfold preFs
  by_cases h : st.fs.pathExists (filename ++ ".tmp") = true
  · rw [if_pos h]
    exact size?_unlink_other _ _ _ hq
  · rw [if_neg h]

lemma streamS_other (st : DLState) (filename q : String) (resp : Response)
    (hq : q ≠ filename ++ ".tmp") :
    (streamS st filename resp).1.size? q = st.fs.size? q := by
  unfold streamS
  rw [streamTo_other _ _ _ hq, preFs_other st filename q hq]

lemma streamS_mid (st : DLState) (filename q : String) (resp : Response)
    (hq : q ≠ filename ++ ".tmp") :
    ∀ m ∈ (streamS st filename resp).2.2, m.size? q = st.fs.size? q := by
  intro m hm
  rw [streamTo_mid (preFs st filename) (filename ++ ".tmp") q hq
    resp.chunks m hm, preFs_other st filename q hq]

lemma spacemit_midFs (st : DLState) (url filename : String) (resp : Response)
    (h0 : st.fs.pathExists filename = false) :
    (spacemit_download st url filename resp).midFs =
      (streamS st filename resp).2.2 := by
  unfold spacemit_download
  rw [if_neg (by simp [h0])]
  dsimp only
  by_cases hint : resp.interrupted = true
  · rw [if_pos hint]
  · rw [if_neg hint]
    by_cases hver : resp.contentLength ≠ 0 ∧
        (streamS st filename resp).2.1 ≠ resp.contentLength
    · rw [if_pos hver]
    · rw [if_neg hver]

lemma spacemit_interrupted_facts (st : DLState) (url filename : String)
    (resp : Response) (h0 : st.fs.pathExists filename = false)
    (hint : resp.interrupted = true) :
    (spacemit_download st url filename resp).ret = none ∧
    (spacemit_download st url filename resp).state.fs =
      (streamS st filename resp).1.unlink (filename ++ ".tmp") := by
  unfold spacemit_download
  rw [if_neg (by simp [h0])]
  dsimp only
  rw [if_pos hint]
  refine ⟨rfl, ?_⟩
  show (if (streamS st filename resp).1.pathExists (filename ++ ".tmp") then
      (streamS st filename resp).1.unlink (filename ++ ".tmp")
    else (streamS st filename resp).1) = _
  rw [if_pos (streamS_temp_exists st filename resp)]

lemma spacemit_fail_ret (st : DLState) (url filename : String)
    (resp : Response) (h0 : st.fs.pathExists filename = false)
    (hint : ¬ resp.interrupted = true)
    (hver : resp.contentLength ≠ 0 ∧
      (streamS st filename resp).2.1 ≠ resp.contentLength) :
    (spacemit_download st url filename resp).ret = none := by
  unfold spacemit_download
  rw [if_neg (by simp [h0])]
  dsimp only
  rw [if_neg hint, if_pos hver]

lemma spacemit_success_facts (st : DLState) (url filename : String)
    (resp : Response) (h0 : st.fs.pathExists filename = false)
    (hint : ¬ resp.interrupted = true)
    (hver : ¬ (resp.contentLength ≠ 0 ∧
      (streamS st filename resp).2.1 ≠ resp.contentLength)) :
    (spacemit_download st url filename resp).ret = some filename ∧
    (spacemit_download st url filename resp).state.fs =
      (streamS st filename resp).1.rename (filename ++ ".tmp") filename := by
  unfold spacemit_download
  rw [if_neg (by simp [h0])]
  dsimp only
  rw [if_neg hint, if_neg hver]
  exact ⟨rfl, rfl⟩

end Download

/-- C1: the claim quantifies over every model download, but the downloader of
src/backend/src/model/download.py streams directly to the final model
filename: interrupting after the first 8192-byte chunk of a declared 16384
leaves, mid-download, a file of 8192 bytes visible under the final name
"m.gguf" — no temporary path and no rename are involved. -/
theorem C1_counterexample :
    ((Download.src_download ⟨⟨[]⟩, []⟩ "u" "m.gguf"
        ⟨16384, [8192], true⟩).midFs.getD 1 ⟨[]⟩).pathExists "m.gguf" = true ∧
    ((Download.src_download ⟨⟨[]⟩, []⟩ "u" "m.gguf"
        ⟨16384, [8192], true⟩).midFs.getD 1 ⟨[]⟩).size? "m.gguf" =
      some 8192 ∧
    (8192 : Nat) ≠ 16384 ∧
    (Download.src_download ⟨⟨[]⟩, []⟩ "u" "m.gguf"
        ⟨16384, [8192], true⟩).ret = none :=
  ⟨rfl, rfl, by decide, rfl⟩

/-- C1 (amended): in the spacemit_llm downloader, a download of a not-yet
present model streams only to the temporary `.tmp` path (mid-download the
final name never exists), verifies the byte count against the declared
content length when one is available (a successful return with a declared
length guarantees the final file has exactly that many bytes), and only the
final rename makes the file visible; after an interrupted download the
exception propagates, no final-named file exists, the temporary artifact is
removed, every other file is untouched, and a subsequent directory-scan
resolution for that model finds nothing.  The src downloader instead streams
directly to the final filename, making the partially-written file visible
under the final name mid-download. -/
theorem C1_download_atomicity (st : Download.DLState) (url filename : String)
    (resp : Download.Response)
    (h0 : st.fs.pathExists filename = false) :
    (∀ m ∈ (Download.spacemit_download st url filename resp).midFs,
      m.pathExists filename = false) ∧
    (resp.interrupted = true →
      (Download.spacemit_download st url filename resp).ret = none ∧
      (Download.spacemit_download st url filename resp).state.fs.pathExists
        filename = false ∧
      (Download.spacemit_download st url filename resp).state.fs.pathExists
        (filename ++ ".tmp") = false ∧
      (∀ q, q ≠ filename ++ ".tmp" →
        (Download.spacemit_download st url filename
          resp).state.fs.pathExists q = st.fs.pathExists q)) ∧
    ((Download.spacemit_download st url filename resp).ret = some filename →
      resp.contentLength ≠ 0 →
      (Download.spacemit_download st url filename resp).state.fs.size?
        filename = some resp.contentLength) ∧
    (resp.interrupted = true → ∀ name mode,
      ModelSelect.modeDir mode ++ name ++ ".gguf" = filename →
      ModelSelect.modeDir mode ++ name ++ ".GGUF" ≠ filename ++ ".tmp" →
      st.fs.pathExists (ModelSelect.modeDir mode ++ name ++ ".GGUF") = false →
      ModelSelect.dirScan
        (Download.FS.paths
          (Download.spacemit_download st url filename resp).state.fs)
        name mode = none) := by
  have hne : filename ≠ filename ++ ".tmp" := Ne.symm (Download.tmp_ne filename)
  have hother : resp.interrupted = true → ∀ q, q ≠ filename ++ ".tmp" →
      (Download.spacemit_download st url filename resp).state.fs.pathExists q
        = st.fs.pathExists q := by
    intro hint q hq
    obtain ⟨_, hfs⟩ :=
      Download.spacemit_interrupted_facts st url filename resp h0 hint
    rw [hfs]
    unfold Download.FS.pathExists
    rw [Download.size?_unlink_other _ _ _ hq,
      Download.streamS_other st filename q resp hq]
  refine ⟨?_, ?_, ?_, ?_⟩
  · intro m hm
    rw [Download.spacemit_midFs st url filename resp h0] at hm
    unfold Download.FS.pathExists
    rw [Download.streamS_mid st filename filename resp hne m hm]
    exact h0
  · intro hint
    obtain ⟨hret, hfs⟩ :=
      Download.spacemit_interrupted_facts st url filename resp h0 hint
    refine ⟨hret, ?_, ?_, hother hint⟩
    · rw [hother hint filename hne]
      exact h0
    · rw [hfs]
      exact Download.pathExists_unlink_self _ _
  · intro hret hcl
    by_cases hint : resp.interrupted = true
    · obtain ⟨hr, _⟩ :=
        Download.spacemit_interrupted_facts st url filename resp h0 hint
      rw [hr] at hret
      exact absurd hret (by simp)
    · by_cases hver : resp.contentLength ≠ 0 ∧
          (Download.streamS st filename resp).2.1 ≠ resp.contentLength
      · have hr := Download.spacemit_fail_ret st url filename resp h0 hint hver
        rw [hr] at hret
        exact absurd hret (by simp)
      · obtain ⟨_, hfs⟩ :=
          Download.spacemit_success_facts st url filename resp h0 hint hver
        rw [hfs]
        have hcount : (Download.streamS st filename resp).2.1 =
            resp.contentLength := by
          by_cases hc : (Download.streamS st filename resp).2.1 =
              resp.contentLength
          · exact hc
          · exact absurd ⟨hcl, hc⟩ hver
        have hsum : resp.chunks.sum = resp.contentLength := by
          rw [← Download.streamS_count st filename resp]
          exact hcount
        rw [Download.size?_rename_dst _ _ _ resp.chunks.sum
          (Download.streamS_size st filename resp), hsum]
  · intro hint name mode hgguf hGGUF hGno
    unfold ModelSelect.dirScan
    have h1 : (Download.FS.paths
        (Download.spacemit_download st url filename resp).state.fs).contains
        (ModelSelect.modeDir mode ++ name ++ ".gguf") = false := by
      rw [Download.contains_paths, hgguf, hother hint filename hne]
      exact h0
    have h2 : (Download.FS.paths
        (Download.spacemit_download st url filename resp).state.fs).contains
        (ModelSelect.modeDir mode ++ name ++ ".GGUF") = false := by
      rw [Download.contains_paths, hother hint _ hGGUF]
      exact hGno
    have h1m : ModelSelect.modeDir mode ++ name ++ ".gguf" ∉
        (Download.FS.paths
          (Download.spacemit_download st url filename resp).state.fs) := by
      simpa using h1
    have h2m : ModelSelect.modeDir mode ++ name ++ ".GGUF" ∉
        (Download.FS.paths
          (Download.spacemit_download st url filename resp).state.fs) := by
      simpa using h2
    simp [h1m, h2m]

/-- Witness for C1 (amended) at a concrete interrupted download into an
empty directory. -/
theorem C1_download_atomicity_witness :
    (∀ m ∈ (Download.spacemit_download ⟨⟨[]⟩, []⟩ "u" "m.gguf"
        ⟨16384, [8192], true⟩).midFs, m.pathExists "m.gguf" = false) ∧
    ((⟨16384, [8192], true⟩ : Download.Response).interrupted = true →
      (Download.spacemit_download ⟨⟨[]⟩, []⟩ "u" "m.gguf"
        ⟨16384, [8192], true⟩).ret = none ∧
      (Download.spacemit_download ⟨⟨[]⟩, []⟩ "u" "m.gguf"
        ⟨16384, [8192], true⟩).state.fs.pathExists "m.gguf" = false ∧
      (Download.spacemit_download ⟨⟨[]⟩, []⟩ "u" "m.gguf"
        ⟨16384, [8192], true⟩).state.fs.pathExists ("m.gguf" ++ ".tmp") =
        false ∧
      (∀ q, q ≠ "m.gguf" ++ ".tmp" →
        (Download.spacemit_download ⟨⟨[]⟩, []⟩ "u" "m.gguf"
          ⟨16384, [8192], true⟩).state.fs.pathExists q =
          (⟨⟨[]⟩, []⟩ : Download.DLState).fs.pathExists q)) ∧
    ((Download.spacemit_download ⟨⟨[]⟩, []⟩ "u" "m.gguf"
        ⟨16384, [8192], true⟩).ret = some "m.gguf" →
      (⟨16384, [8192], true⟩ : Download.Response).contentLength ≠ 0 →
      (Download.spacemit_download ⟨⟨[]⟩, []⟩ "u" "m.gguf"
        ⟨16384, [8192], true⟩).state.fs.size? "m.gguf" = some 16384) ∧
    ((⟨16384, [8192], true⟩ : Download.Response).interrupted = true →
      ∀ name mode,
      ModelSelect.modeDir mode ++ name ++ ".gguf" = "m.gguf" →
      ModelSelect.modeDir mode ++ name ++ ".GGUF" ≠ "m.gguf" ++ ".tmp" →
      (⟨⟨[]⟩, []⟩ : Download.DLState).fs.pathExists
        (ModelSelect.modeDir mode ++ name ++ ".GGUF") = false →
      ModelSelect.dirScan
        (Download.FS.paths
          (Download.spacemit_download ⟨⟨[]⟩, []⟩ "u" "m.gguf"
            ⟨16384, [8192], true⟩).state.fs) name mode = none) :=
  C1_download_atomicity ⟨⟨[]⟩, []⟩ "u" "m.gguf" ⟨16384, [8192], true⟩ rfl

/-- C10: when the target filename derived from the URL already exists in the
download directory, both downloaders return the existing file's path
immediately, report 100% progress, issue no network request, register no
download task, and modify nothing — regardless of the existing file's
contents. -/
theorem C10_existing_file_short_circuit (st : Download.DLState)
    (url : String) (resp : Download.Response)
    (h : st.fs.pathExists (Download.get_filename_from_url url) = true) :
    Download.spacemit_download st url (Download.get_filename_from_url url)
        resp =
      { state := st, ret := some (Download.get_filename_from_url url),
        requested := false,
        progress := [((st.fs.size? (Download.get_filename_from_url url)).getD 0,
          (st.fs.size? (Download.get_filename_from_url url)).getD 0, 100)],
        midFs := [] } ∧
    Download.src_download st url (Download.get_filename_from_url url) resp =
      { state := st, ret := some (Download.get_filename_from_url url),
        requested := false,
        progress := [((st.fs.size? (Download.get_filename_from_url url)).getD 0,
          (st.fs.size? (Download.get_filename_from_url url)).getD 0, 100)],
        midFs := [] } := by
  constructor
  · unfold Download.spacemit_download
    rw [if_pos h]
  · unfold Download.src_download
    rw [if_pos h]

/-- Witness for C10: the file "m.gguf" (5 bytes) already exists and the URL
"http://h/m.gguf" derives that filename. -/
theorem C10_existing_file_short_circuit_witness :
    Download.spacemit_download ⟨⟨[("m.gguf", 5)]⟩, []⟩ "http://h/m.gguf"
        (Download.get_filename_from_url "http://h/m.gguf") ⟨0, [], false⟩ =
      { state := ⟨⟨[("m.gguf", 5)]⟩, []⟩,
        ret := some (Download.get_filename_from_url "http://h/m.gguf"),
        requested := false,
        progress := [(((⟨⟨[("m.gguf", 5)]⟩, []⟩ :
            Download.DLState).fs.size?
            (Download.get_filename_from_url "http://h/m.gguf")).getD 0,
          ((⟨⟨[("m.gguf", 5)]⟩, []⟩ : Download.DLState).fs.size?
            (Download.get_filename_from_url "http://h/m.gguf")).getD 0, 100)],
        midFs := [] } ∧
    Download.src_download ⟨⟨[("m.gguf", 5)]⟩, []⟩ "http://h/m.gguf"
        (Download.get_filename_from_url "http://h/m.gguf") ⟨0, [], false⟩ =
      { state := ⟨⟨[("m.gguf", 5)]⟩, []⟩,
        ret := some (Download.get_filename_from_url "http://h/m.gguf"),
        requested := false,
        progress := [(((⟨⟨[("m.gguf", 5)]⟩, []⟩ :
            Download.DLState).fs.size?
            (Download.get_filename_from_url "http://h/m.gguf")).getD 0,
          ((⟨⟨[("m.gguf", 5)]⟩, []⟩ : Download.DLState).fs.size?
            (Download.get_filename_from_url "http://h/m.gguf")).getD 0, 100)],
        midFs := [] } :=
  C10_existing_file_short_circuit ⟨⟨[("m.gguf", 5)]⟩, []⟩ "http://h/m.gguf"
    ⟨0, [], false⟩ (by rfl)
